import Mathlib

namespace PowerDapp

/-!
Verification development for the power-dapp repository.

The repository's core logic lives in two Solidity contracts:
  src/contracts/Certificate.sol   (contract RenewableCertificate)
  src/contracts/EnergyTrader.sol  (contracts EnergyTradeLedger and EnergyLogger)

This file shallowly embeds the contract state and the operations the
claims refer to.  Conventions:

* `address` is modelled as `Nat` (0 plays the role of `address(0)`),
  `uint256` as `Nat`.  Solidity ^0.8 arithmetic is checked: overflow,
  underflow and division by zero revert the transaction.  We model a
  revert as `Except.error`; where a `uint256` operation can plausibly
  overflow within a single call (products of caller-supplied values,
  decrements of counters) we perform the corresponding explicit check
  against `2^256 - 1` (`UMAX`) before computing in `Nat`.  Counter
  increments by small constants are modelled as plain `Nat` addition
  (the checked Solidity addition only differs at values that can never
  be reached by incrementing).
* Solidity `mapping`s are total functions with the zero-value default;
  `mset` is pointwise storage update.
* `msg.sender`, `msg.value`, `block.timestamp` and the results of
  external calls (the three `call{value: _}` payment transfers in
  `acceptOffer`, and `certificateContract.getCertificates` in
  `createOffer`) are supplied by a call context `Ctx`.
* An EVM transaction is all-or-nothing: a revert restores the pre-call
  state.  `applyTx r s` is the post-transaction state of a call that
  returned `r` starting from `s`.
* Outgoing value transfers are recorded in an append-only `payouts`
  ledger `(recipient, amount)` so that fund movement is observable.
-/

/-- Revert reasons appearing in the contracts' `require` statements,
plus the implicit arithmetic-check reverts of Solidity ^0.8. -/
inductive Err where
  | invalidEnergySource
  | belowThreshold
  | invalidRecipient
  | notCertOwner
  | certNotValid
  | offerNotFound
  | tradeNotFound
  | notActive
  | offerExpired
  | belowMinimum
  | exceedsAvailable
  | insufficientPayment
  | onlySeller
  | zeroEnergy
  | zeroPrice
  | invalidMinPurchase
  | expirationNotFuture
  | insufficientCertificates
  | feeTransferFailed
  | sellerTransferFailed
  | refundTransferFailed
  | invalidAddresses
  | notBuyer
  | tradeNotOpen
  | unauthorized
  | feeRateTooHigh
  | invalidAddress
  | onlyOwner
  | notFound
  | overflow
  | underflow
  | divByZero
  deriving DecidableEq, Repr

/-- Largest representable `uint256` value. -/
def UMAX : Nat := 2 ^ 256 - 1

/-- Storage update of a Solidity mapping, modelled as a pointwise
function update. -/
def mset {κ α : Type} [DecidableEq κ] (m : κ → α) (k : κ) (v : α) : κ → α :=
  fun a => if a = k then v else m a

/-- Post-transaction state: a reverted call (`Except.error`) leaves the
pre-call storage untouched, a successful call commits the new state. -/
def applyTx {σ : Type} (r : Except Err σ) (s : σ) : σ :=
  match r with
  | .ok s' => s'
  | .error _ => s

/-- Boolean success test for a call result. -/
def callOk {σ : Type} (r : Except Err σ) : Bool :=
  match r with
  | .ok _ => true
  | .error _ => false

/-! ## Contract RenewableCertificate (src/contracts/Certificate.sol) -/

/-- Constant `ENERGY_THRESHOLD`: 100 kWh = 1 certificate. -/
def ENERGY_THRESHOLD : Nat := 100

/-- Struct `Certificate` of Certificate.sol. -/
structure Certificate where
  id : Nat
  energyAmount : Nat
  issuanceDate : Nat
  energySource : String
  location : String
  isValid : Bool
  deriving DecidableEq, Repr

/-- Zero-initialised `Certificate`, the value an unset
`mapping(uint => Certificate)` slot reads as. -/
def zeroCert : Certificate :=
  { id := 0, energyAmount := 0, issuanceDate := 0,
    energySource := "", location := "", isValid := false }

/-- Storage of contract RenewableCertificate. -/
structure CertState where
  certificateCount : Nat → Nat
  ownedCertificates : Nat → List Nat
  certificates : Nat → Certificate
  certificateToOwner : Nat → Nat
  nextCertificateId : Nat
  validEnergySources : String → Bool

/-- State established by the RenewableCertificate constructor. -/
def initCertState : CertState :=
  { certificateCount := fun _ => 0
    ownedCertificates := fun _ => []
    certificates := fun _ => zeroCert
    certificateToOwner := fun _ => 0
    nextCertificateId := 1
    validEnergySources :=
      mset (mset (mset (mset (mset (fun _ => false)
        "solar" true) "wind" true) "hydro" true) "biomass" true) "geothermal" true }

/-- The `for` loop of `mintCertificate`: runs `n` more iterations with
`remaining` energy still to assign, issuing one certificate per
iteration (each of `min remaining ENERGY_THRESHOLD` kWh, exactly as the
source computes it). -/
def mintLoop (generator : Nat) (source location : String) (now : Nat) :
    Nat → Nat → CertState → CertState
  | 0, _, s => s
  | n + 1, remaining, s =>
    let energyAmountForCert :=
      if ENERGY_THRESHOLD ≤ remaining then ENERGY_THRESHOLD else remaining
    let remaining' := remaining - energyAmountForCert
    let cid := s.nextCertificateId
    let newCert : Certificate :=
      { id := cid, energyAmount := energyAmountForCert, issuanceDate := now,
        energySource := source, location := location, isValid := true }
    let s' : CertState :=
      { s with
        certificates := mset s.certificates cid newCert
        certificateToOwner := mset s.certificateToOwner cid generator
        ownedCertificates :=
          mset s.ownedCertificates generator (s.ownedCertificates generator ++ [cid])
        nextCertificateId := cid + 1 }
    mintLoop generator source location now n remaining' s'

/-- Function `mintCertificate(_generator, _energyProduced, _energySource, _location)`. -/
def mintCertificate (s : CertState) (generator energyProduced : Nat)
    (source location : String) (now : Nat) : Except Err CertState :=
  if s.validEnergySources source = false then .error .invalidEnergySource
  else if energyProduced < ENERGY_THRESHOLD then .error .belowThreshold
  else
    let numCerts := energyProduced / ENERGY_THRESHOLD
    let s' := mintLoop generator source location now numCerts energyProduced s
    .ok { s' with
          certificateCount :=
            mset s'.certificateCount generator (s'.certificateCount generator + numCerts) }

/-- The swap-with-last-and-pop removal loop of `transferCertificate`
(and of `registerUser` in EnergyTrader.sol): find the first occurrence
of `x`, overwrite it with the last element, pop the last element. -/
def swapPopFirst (l : List Nat) (x : Nat) : List Nat :=
  match l.findIdx? (fun a => a = x) with
  | none => l
  | some i => (l.set i (l.getLast?.getD 0)).dropLast

/-- Function `transferCertificate(_to, _certificateId)`; `sender` is `msg.sender`.
The final `certificateCount[msg.sender]--` is a checked decrement, so a
zero count reverts. -/
def transferCertificate (s : CertState) (sender recipient cid : Nat) :
    Except Err CertState :=
  if recipient = 0 then .error .invalidRecipient
  else if s.certificateToOwner cid ≠ sender then .error .notCertOwner
  else if (s.certificates cid).isValid = false then .error .certNotValid
  else if s.certificateCount sender = 0 then .error .underflow
  else
    let owned1 := mset s.ownedCertificates sender (swapPopFirst (s.ownedCertificates sender) cid)
    let owned2 := mset owned1 recipient (owned1 recipient ++ [cid])
    let count1 := mset s.certificateCount sender (s.certificateCount sender - 1)
    let count2 := mset count1 recipient (count1 recipient + 1)
    .ok { s with
          ownedCertificates := owned2
          certificateToOwner := mset s.certificateToOwner cid recipient
          certificateCount := count2 }

/-- Function `redeemCertificate(_certificateId)`; `sender` is `msg.sender`. -/
def redeemCertificate (s : CertState) (sender cid : Nat) : Except Err CertState :=
  if s.certificateToOwner cid ≠ sender then .error .notCertOwner
  else if (s.certificates cid).isValid = false then .error .certNotValid
  else if s.certificateCount sender = 0 then .error .underflow
  else
    .ok { s with
          certificates := mset s.certificates cid { s.certificates cid with isValid := false }
          certificateCount := mset s.certificateCount sender (s.certificateCount sender - 1) }

/-- Function `getCertificates(_owner)`: number of valid certificates of an owner. -/
def getCertificates (s : CertState) (owner : Nat) : Nat :=
  s.certificateCount owner

/-- Function `getCertificateDetails(_certificateId)`: reads the certificate
mapping and the owner mapping; the source has no `require`, so the
query is total (an unset id yields the zero-initialised struct). -/
def getCertificateDetails (s : CertState) (cid : Nat) :
    Nat × Nat × Nat × String × String × Bool × Nat :=
  let cert := s.certificates cid
  (cert.id, cert.energyAmount, cert.issuanceDate, cert.energySource,
   cert.location, cert.isValid, s.certificateToOwner cid)

/-- Modelled from the spec: the CertificateLedger detail query as §4.2
describes it — "full certificate detail by id (fails with `NotFound` if
id unused)".  The source function `getCertificateDetails` has no such
failure path; this definition exists only to compare the spec's claimed
behaviour with the source's. -/
def getCertificateDetailsSpec (s : CertState) (cid : Nat) :
    Except Err (Nat × Nat × Nat × String × String × Bool × Nat) :=
  if cid = 0 ∨ s.nextCertificateId ≤ cid then .error .notFound
  else .ok (getCertificateDetails s cid)

/-- Function `addEnergySource(_energySource)`: the source has no access-control
check, so the caller is irrelevant; we keep it as an (unused) argument
to make that explicit. -/
def addEnergySource (s : CertState) (caller : Nat) (source : String) : CertState :=
  let _ := caller
  { s with validEnergySources := mset s.validEnergySources source true }

/-- Function `removeEnergySource(_energySource)`: likewise unauthenticated. -/
def removeEnergySource (s : CertState) (caller : Nat) (source : String) : CertState :=
  let _ := caller
  { s with validEnergySources := mset s.validEnergySources source false }

/-- States of contract RenewableCertificate reachable from its
constructor state through committed (non-reverting) transactions. -/
inductive CertReach : CertState → Prop where
  | init : CertReach initCertState
  | mint (s : CertState) (gen e : Nat) (src loc : String) (now : Nat) (s' : CertState) :
      CertReach s → mintCertificate s gen e src loc now = .ok s' → CertReach s'
  | xfer (s : CertState) (sender recipient cid : Nat) (s' : CertState) :
      CertReach s → transferCertificate s sender recipient cid = .ok s' → CertReach s'
  | redeem (s : CertState) (sender cid : Nat) (s' : CertState) :
      CertReach s → redeemCertificate s sender cid = .ok s' → CertReach s'
  | addSrc (s : CertState) (caller : Nat) (src : String) :
      CertReach s → CertReach (addEnergySource s caller src)
  | removeSrc (s : CertState) (caller : Nat) (src : String) :
      CertReach s → CertReach (removeEnergySource s caller src)

/-! ## Contract EnergyTradeLedger (src/contracts/EnergyTrader.sol) -/

/-- Environment of a single external call into EnergyTradeLedger:
`msg.sender`, `msg.value`, `block.timestamp`, the value the external
call `certificateContract.getCertificates(msg.sender)` would return,
and the success/failure outcome of each of the three low-level
`call{value: _}` payment transfers in `acceptOffer` (external calls can
fail for reasons outside this contract). -/
structure Ctx where
  sender : Nat
  msgValue : Nat
  now : Nat
  sellerCertCount : Nat
  feeOk : Bool
  sellerOk : Bool
  refundOk : Bool
  deriving DecidableEq, Repr

/-- Enum `TradeStatus` of EnergyTrader.sol. -/
inductive TradeStatus where
  | Open
  | Completed
  | Cancelled
  deriving DecidableEq, Repr

/-- Struct `Trade` of EnergyTrader.sol. -/
structure Trade where
  id : Nat
  seller : Nat
  buyer : Nat
  energyAmount : Nat
  pricePerUnit : Nat
  totalPrice : Nat
  timestamp : Nat
  deliveryTime : Nat
  region : String
  status : TradeStatus
  isCertified : Bool
  certificateId : Nat
  deriving DecidableEq, Repr

/-- Struct `EnergyOffer` of EnergyTrader.sol. -/
structure EnergyOffer where
  id : Nat
  seller : Nat
  energyAmount : Nat
  pricePerUnit : Nat
  minPurchaseAmount : Nat
  expirationTime : Nat
  region : String
  isCertified : Bool
  isActive : Bool
  deriving DecidableEq, Repr

/-- Struct `MarketMetrics` of EnergyTrader.sol. -/
structure MarketMetrics where
  totalTrades : Nat
  totalVolumeTraded : Nat
  totalValueTraded : Nat
  averagePrice : Nat
  regionVolumes : String → Nat
  regionValues : String → Nat
  regionPrices : String → Nat

/-- Storage of contract EnergyTradeLedger.  Outgoing value transfers
are additionally logged in `payouts` (recipient, amount) so the claims
about fund movement are stateable. -/
structure TState where
  trades : List Trade
  offers : List EnergyOffer
  sellerTrades : Nat → List Nat
  buyerTrades : Nat → List Nat
  sellerOffers : Nat → List Nat
  regionOffers : String → List Nat
  marketMetrics : MarketMetrics
  owner : Nat
  platformFeeRate : Nat
  feeRecipient : Nat
  payouts : List (Nat × Nat)

/-- Zero-initialised market metrics. -/
def initMetrics : MarketMetrics :=
  { totalTrades := 0, totalVolumeTraded := 0, totalValueTraded := 0, averagePrice := 0,
    regionVolumes := fun _ => 0, regionValues := fun _ => 0, regionPrices := fun _ => 0 }

/-- State established by the EnergyTradeLedger constructor (the
deployer becomes `owner` and `feeRecipient`; the default platform fee
rate is 250 basis points). -/
def initTState (deployer : Nat) : TState :=
  { trades := [], offers := []
    sellerTrades := fun _ => [], buyerTrades := fun _ => []
    sellerOffers := fun _ => [], regionOffers := fun _ => []
    marketMetrics := initMetrics
    owner := deployer, platformFeeRate := 250, feeRecipient := deployer
    payouts := [] }

/-- Market-metrics update block of `acceptOffer` (EnergyTrader.sol
lines 273-283): bump the global counters, recompute the running mean
(a division, which Solidity ^0.8 reverts on when the divisor is zero),
bump the region counters and recompute the region mean when the region
volume is positive. -/
def updateMetricsAccept (m : MarketMetrics) (energyAmount totalPrice : Nat)
    (region : String) : Except Err MarketMetrics :=
  let totalVolume' := m.totalVolumeTraded + energyAmount
  let totalValue' := m.totalValueTraded + totalPrice
  if totalVolume' = 0 then .error .divByZero
  else
    let regionVolumes' := mset m.regionVolumes region (m.regionVolumes region + energyAmount)
    let regionValues' := mset m.regionValues region (m.regionValues region + totalPrice)
    let regionPrices' :=
      if 0 < regionVolumes' region
      then mset m.regionPrices region (regionValues' region / regionVolumes' region)
      else m.regionPrices
    .ok { totalTrades := m.totalTrades + 1
          totalVolumeTraded := totalVolume'
          totalValueTraded := totalValue'
          averagePrice := totalValue' / totalVolume'
          regionVolumes := regionVolumes'
          regionValues := regionValues'
          regionPrices := regionPrices' }

/-- Market-metrics update block of `recordTrade` (EnergyTrader.sol
lines 390-400); the source duplicates the `acceptOffer` block verbatim. -/
def updateMetricsRecord (m : MarketMetrics) (energyAmount totalPrice : Nat)
    (region : String) : Except Err MarketMetrics :=
  let totalVolume' := m.totalVolumeTraded + energyAmount
  let totalValue' := m.totalValueTraded + totalPrice
  if totalVolume' = 0 then .error .divByZero
  else
    let regionVolumes' := mset m.regionVolumes region (m.regionVolumes region + energyAmount)
    let regionValues' := mset m.regionValues region (m.regionValues region + totalPrice)
    let regionPrices' :=
      if 0 < regionVolumes' region
      then mset m.regionPrices region (regionValues' region / regionVolumes' region)
      else m.regionPrices
    .ok { totalTrades := m.totalTrades + 1
          totalVolumeTraded := totalVolume'
          totalValueTraded := totalValue'
          averagePrice := totalValue' / totalVolume'
          regionVolumes := regionVolumes'
          regionValues := regionValues'
          regionPrices := regionPrices' }

/-- Function `createOffer(_energyAmount, _pricePerUnit, _minPurchaseAmount,
_expirationTime, _region, _isCertified)`.  The certified-offer branch
reads the seller's certificate count from the certificate contract
(`ctx.sellerCertCount`); the product `certificateCount * 100` is a
checked multiplication. -/
def createOffer (s : TState) (ctx : Ctx)
    (energyAmount pricePerUnit minPurchaseAmount expirationTime : Nat)
    (region : String) (isCertified : Bool) : Except Err TState :=
  if energyAmount = 0 then .error .zeroEnergy
  else if pricePerUnit = 0 then .error .zeroPrice
  else if ¬ (0 < minPurchaseAmount ∧ minPurchaseAmount ≤ energyAmount) then
    .error .invalidMinPurchase
  else if ¬ (ctx.now < expirationTime) then .error .expirationNotFuture
  else if isCertified = true ∧ UMAX < ctx.sellerCertCount * 100 then .error .overflow
  else if isCertified = true ∧ ctx.sellerCertCount * 100 < energyAmount then
    .error .insufficientCertificates
  else
    let offerId := s.offers.length
    let newOffer : EnergyOffer :=
      { id := offerId, seller := ctx.sender, energyAmount := energyAmount
        pricePerUnit := pricePerUnit, minPurchaseAmount := minPurchaseAmount
        expirationTime := expirationTime, region := region
        isCertified := isCertified, isActive := true }
    .ok { s with
          offers := s.offers ++ [newOffer]
          sellerOffers := mset s.sellerOffers ctx.sender (s.sellerOffers ctx.sender ++ [offerId])
          regionOffers := mset s.regionOffers region (s.regionOffers region ++ [offerId]) }

/-- Function `updateOffer(_offerId, _energyAmount, _pricePerUnit,
_minPurchaseAmount, _expirationTime)`. -/
def updateOffer (s : TState) (ctx : Ctx)
    (offerId energyAmount pricePerUnit minPurchaseAmount expirationTime : Nat) :
    Except Err TState :=
  match s.offers[offerId]? with
  | none => .error .offerNotFound
  | some offer =>
    if offer.seller ≠ ctx.sender then .error .onlySeller
    else if offer.isActive = false then .error .notActive
    else if energyAmount = 0 then .error .zeroEnergy
    else if pricePerUnit = 0 then .error .zeroPrice
    else if ¬ (0 < minPurchaseAmount ∧ minPurchaseAmount ≤ energyAmount) then
      .error .invalidMinPurchase
    else if ¬ (ctx.now < expirationTime) then .error .expirationNotFuture
    else
      let offer' :=
        { offer with
          energyAmount := energyAmount, pricePerUnit := pricePerUnit,
          minPurchaseAmount := minPurchaseAmount, expirationTime := expirationTime }
      .ok { s with offers := s.offers.set offerId offer' }

/-- Function `cancelOffer(_offerId)`. -/
def cancelOffer (s : TState) (ctx : Ctx) (offerId : Nat) : Except Err TState :=
  match s.offers[offerId]? with
  | none => .error .offerNotFound
  | some offer =>
    if offer.seller ≠ ctx.sender then .error .onlySeller
    else if offer.isActive = false then .error .notActive
    else .ok { s with offers := s.offers.set offerId ({ offer with isActive := false }) }

/-- Function `acceptOffer(_offerId, _energyAmount)` (payable).  The body follows
the source statement for statement: validation requires, trade record,
offer decrement and possible deactivation, market-metrics update, fee
split, then the three external transfers (fee — only when the fee
amount is positive —, seller payout, and refund of any overpayment),
each of which reverts the whole call on failure. -/
def acceptOffer (s : TState) (ctx : Ctx) (offerId energyAmount : Nat) :
    Except Err TState :=
  match s.offers[offerId]? with
  | none => .error .offerNotFound
  | some offer =>
    if offer.isActive = false then .error .notActive
    else if offer.expirationTime ≤ ctx.now then .error .offerExpired
    else if energyAmount < offer.minPurchaseAmount then .error .belowMinimum
    else if offer.energyAmount < energyAmount then .error .exceedsAvailable
    else if UMAX < energyAmount * offer.pricePerUnit then .error .overflow
    else
      let totalPrice := energyAmount * offer.pricePerUnit
      if ctx.msgValue < totalPrice then .error .insufficientPayment
      else
        let tradeId := s.trades.length
        let newTrade : Trade :=
          { id := tradeId, seller := offer.seller, buyer := ctx.sender
            energyAmount := energyAmount, pricePerUnit := offer.pricePerUnit
            totalPrice := totalPrice, timestamp := ctx.now
            deliveryTime := ctx.now + 86400, region := offer.region
            status := .Open, isCertified := offer.isCertified, certificateId := 0 }
        let offer' :=
          { offer with
            energyAmount := offer.energyAmount - energyAmount
            isActive := if offer.energyAmount - energyAmount < offer.minPurchaseAmount
                        then false else offer.isActive }
        match updateMetricsAccept s.marketMetrics energyAmount totalPrice offer.region with
        | .error err => .error err
        | .ok m' =>
          if UMAX < totalPrice * s.platformFeeRate then .error .overflow
          else
            let feeAmount := totalPrice * s.platformFeeRate / 10000
            if totalPrice < feeAmount then .error .underflow
            else
              let sellerAmount := totalPrice - feeAmount
              if 0 < feeAmount ∧ ctx.feeOk = false then .error .feeTransferFailed
              else if ctx.sellerOk = false then .error .sellerTransferFailed
              else if totalPrice < ctx.msgValue ∧ ctx.refundOk = false then
                .error .refundTransferFailed
              else
                .ok { s with
                      trades := s.trades ++ [newTrade]
                      sellerTrades := mset s.sellerTrades offer.seller
                        (s.sellerTrades offer.seller ++ [tradeId])
                      buyerTrades := mset s.buyerTrades ctx.sender
                        (s.buyerTrades ctx.sender ++ [tradeId])
                      offers := s.offers.set offerId offer'
                      marketMetrics := m'
                      payouts := s.payouts
                        ++ (if 0 < feeAmount then [(s.feeRecipient, feeAmount)] else [])
                        ++ [(offer.seller, sellerAmount)]
                        ++ (if totalPrice < ctx.msgValue
                            then [(ctx.sender, ctx.msgValue - totalPrice)] else []) }

/-- Function `recordTrade(_seller, _buyer, _energyAmount, _pricePerUnit,
_region)`: logs an off-platform trade, already completed, with no
payment transfer. -/
def recordTrade (s : TState) (ctx : Ctx)
    (seller buyer energyAmount pricePerUnit : Nat) (region : String) :
    Except Err TState :=
  let _ := ctx.sender
  if seller = 0 ∨ buyer = 0 then .error .invalidAddresses
  else if energyAmount = 0 then .error .zeroEnergy
  else if UMAX < energyAmount * pricePerUnit then .error .overflow
  else
    let totalPrice := energyAmount * pricePerUnit
    let tradeId := s.trades.length
    let newTrade : Trade :=
      { id := tradeId, seller := seller, buyer := buyer
        energyAmount := energyAmount, pricePerUnit := pricePerUnit
        totalPrice := totalPrice, timestamp := ctx.now
        deliveryTime := ctx.now, region := region
        status := .Completed, isCertified := false, certificateId := 0 }
    match updateMetricsRecord s.marketMetrics energyAmount totalPrice region with
    | .error err => .error err
    | .ok m' =>
      .ok { s with
            trades := s.trades ++ [newTrade]
            sellerTrades := mset s.sellerTrades seller (s.sellerTrades seller ++ [tradeId])
            buyerTrades := mset s.buyerTrades buyer (s.buyerTrades buyer ++ [tradeId])
            marketMetrics := m' }

/-- Function `completeTrade(_tradeId)`. -/
def completeTrade (s : TState) (ctx : Ctx) (tradeId : Nat) : Except Err TState :=
  match s.trades[tradeId]? with
  | none => .error .tradeNotFound
  | some trade =>
    if trade.buyer ≠ ctx.sender then .error .notBuyer
    else if trade.status ≠ .Open then .error .tradeNotOpen
    else .ok { s with trades := s.trades.set tradeId ({ trade with status := .Completed }) }

/-- Function `cancelTrade(_tradeId)`. -/
def cancelTrade (s : TState) (ctx : Ctx) (tradeId : Nat) : Except Err TState :=
  match s.trades[tradeId]? with
  | none => .error .tradeNotFound
  | some trade =>
    if trade.status ≠ .Open then .error .tradeNotOpen
    else if ¬ (ctx.sender = trade.seller ∨ ctx.sender = trade.buyer ∨ ctx.sender = s.owner)
      then .error .unauthorized
    else .ok { s with trades := s.trades.set tradeId ({ trade with status := .Cancelled }) }

/-- Function `setPlatformFeeRate(_newFeeRate)` (owner-only, capped at 10%). -/
def setPlatformFeeRate (s : TState) (ctx : Ctx) (newFeeRate : Nat) : Except Err TState :=
  if ctx.sender ≠ s.owner then .error .onlyOwner
  else if 1000 < newFeeRate then .error .feeRateTooHigh
  else .ok { s with platformFeeRate := newFeeRate }

/-- Function `setFeeRecipient(_newFeeRecipient)` (owner-only, non-zero). -/
def setFeeRecipient (s : TState) (ctx : Ctx) (newFeeRecipient : Nat) : Except Err TState :=
  if ctx.sender ≠ s.owner then .error .onlyOwner
  else if newFeeRecipient = 0 then .error .invalidAddress
  else .ok { s with feeRecipient := newFeeRecipient }

/-- The trade record `acceptOffer` appends for a purchase of
`energyAmount` from `offer`. -/
def acceptedTrade (s : TState) (ctx : Ctx) (offer : EnergyOffer) (energyAmount : Nat) : Trade :=
  { id := s.trades.length, seller := offer.seller, buyer := ctx.sender
    energyAmount := energyAmount, pricePerUnit := offer.pricePerUnit
    totalPrice := energyAmount * offer.pricePerUnit, timestamp := ctx.now
    deliveryTime := ctx.now + 86400, region := offer.region
    status := .Open, isCertified := offer.isCertified, certificateId := 0 }

/-- The offer as `acceptOffer` leaves it: energy decremented, and
deactivated when the remainder falls below the minimum purchase. -/
def acceptedOffer (offer : EnergyOffer) (energyAmount : Nat) : EnergyOffer :=
  { offer with
    energyAmount := offer.energyAmount - energyAmount
    isActive := if offer.energyAmount - energyAmount < offer.minPurchaseAmount
                then false else offer.isActive }

/-- The payout ledger after a successful `acceptOffer`: the previous
entries followed by the platform fee (when positive), the seller
payout, and the refund of any overpayment. -/
def acceptPayouts (s : TState) (ctx : Ctx) (offer : EnergyOffer) (energyAmount : Nat) :
    List (Nat × Nat) :=
  s.payouts
  ++ (if 0 < energyAmount * offer.pricePerUnit * s.platformFeeRate / 10000
      then [(s.feeRecipient, energyAmount * offer.pricePerUnit * s.platformFeeRate / 10000)]
      else [])
  ++ [(offer.seller, energyAmount * offer.pricePerUnit
        - energyAmount * offer.pricePerUnit * s.platformFeeRate / 10000)]
  ++ (if energyAmount * offer.pricePerUnit < ctx.msgValue
      then [(ctx.sender, ctx.msgValue - energyAmount * offer.pricePerUnit)] else [])

/-- The offer as `updateOffer` rewrites it. -/
def updatedOffer (offer : EnergyOffer)
    (energyAmount pricePerUnit minPurchaseAmount expirationTime : Nat) : EnergyOffer :=
  { offer with
    energyAmount := energyAmount, pricePerUnit := pricePerUnit,
    minPurchaseAmount := minPurchaseAmount, expirationTime := expirationTime }

/-- Deployer-7 trading ledger with one open offer (id 0): seller 1,
500 kWh at 2 wei/kWh, minimum purchase 100 kWh, expiring at time 10,
region "CA", uncertified. -/
def sampleLedger : TState :=
  applyTx (createOffer (initTState 7) ⟨1, 0, 0, 5, true, true, true⟩ 500 2 100 10 "CA" false)
    (initTState 7)

/-- Like `sampleLedger` but with offer 0 certified (the seller's
certificate count read at creation time is 5, covering 500 kWh). -/
def sampleLedgerCert : TState :=
  applyTx (createOffer (initTState 7) ⟨1, 0, 0, 5, true, true, true⟩ 500 2 100 10 "CA" true)
    (initTState 7)

/-- The offer stored at id 0 of `sampleLedger`. -/
def sampleOffer : EnergyOffer :=
  { id := 0, seller := 1, energyAmount := 500, pricePerUnit := 2,
    minPurchaseAmount := 100, expirationTime := 10, region := "CA",
    isCertified := false, isActive := true }

/-- States of contract EnergyTradeLedger reachable from its constructor
state through committed (non-reverting) transactions. -/
inductive Reach : TState → Prop where
  | init (deployer : Nat) : Reach (initTState deployer)
  | createStep (s : TState) (ctx : Ctx) (e p mp ex : Nat) (r : String) (b : Bool)
      (s' : TState) : Reach s → createOffer s ctx e p mp ex r b = .ok s' → Reach s'
  | updateStep (s : TState) (ctx : Ctx) (oid e p mp ex : Nat) (s' : TState) :
      Reach s → updateOffer s ctx oid e p mp ex = .ok s' → Reach s'
  | cancelStep (s : TState) (ctx : Ctx) (oid : Nat) (s' : TState) :
      Reach s → cancelOffer s ctx oid = .ok s' → Reach s'
  | acceptStep (s : TState) (ctx : Ctx) (oid e : Nat) (s' : TState) :
      Reach s → acceptOffer s ctx oid e = .ok s' → Reach s'
  | recordStep (s : TState) (ctx : Ctx) (sl br e p : Nat) (r : String) (s' : TState) :
      Reach s → recordTrade s ctx sl br e p r = .ok s' → Reach s'
  | completeStep (s : TState) (ctx : Ctx) (tid : Nat) (s' : TState) :
      Reach s → completeTrade s ctx tid = .ok s' → Reach s'
  | cancelTradeStep (s : TState) (ctx : Ctx) (tid : Nat) (s' : TState) :
      Reach s → cancelTrade s ctx tid = .ok s' → Reach s'
  | setRateStep (s : TState) (ctx : Ctx) (rate : Nat) (s' : TState) :
      Reach s → setPlatformFeeRate s ctx rate = .ok s' → Reach s'
  | setRecipientStep (s : TState) (ctx : Ctx) (addr : Nat) (s' : TState) :
      Reach s → setFeeRecipient s ctx addr = .ok s' → Reach s'

/-! ## Contract EnergyLogger (registry part, in src/contracts/EnergyTrader.sol) -/

/-- Struct `GridMetrics` of EnergyLogger. -/
structure GridMetrics where
  region : String
  totalProduction : Nat
  totalConsumption : Nat
  participantCount : Nat
  lastUpdateTimestamp : Nat
  deriving DecidableEq, Repr

/-- The storage of EnergyLogger that `registerUser` reads or writes
(the reading logs, user metrics and verifier set are untouched by
registration and are omitted). -/
structure LState where
  userRegion : Nat → String
  regionUsers : String → List Nat
  gridMetrics : String → GridMetrics

/-- Zero-initialised registry storage. -/
def initLState : LState :=
  { userRegion := fun _ => ""
    regionUsers := fun _ => []
    gridMetrics := fun _ =>
      { region := "", totalProduction := 0, totalConsumption := 0,
        participantCount := 0, lastUpdateTimestamp := 0 } }

/-- Grid metrics as `registerUser` initialises them for a region's
first participant. -/
def initRegionMetrics (g : GridMetrics) (region : String) (now : Nat) : GridMetrics :=
  { g with region := region, participantCount := 1, lastUpdateTimestamp := now }

/-- Grid metrics with the participant count bumped by one. -/
def bumpRegionMetrics (g : GridMetrics) (now : Nat) : GridMetrics :=
  { g with participantCount := g.participantCount + 1, lastUpdateTimestamp := now }

/-- Grid metrics with the participant count decremented (the caller has
checked it is positive, since `participantCount--` reverts at zero). -/
def decRegionMetrics (g : GridMetrics) : GridMetrics :=
  { g with participantCount := g.participantCount - 1 }

/-- Tail of `registerUser` common to both branches: store the new
region, append the sender to the region's user list, then initialise
the region's grid metrics (first participant) or bump its participant
count. -/
def registerTail (s : LState) (sender : Nat) (region : String) (now : Nat) : LState :=
  let s3 : LState := { s with userRegion := mset s.userRegion sender region }
  let s4 : LState :=
    { s3 with regionUsers := mset s3.regionUsers region (s3.regionUsers region ++ [sender]) }
  let metrics := s4.gridMetrics region
  if metrics.participantCount = 0 then
    { s4 with gridMetrics := mset s4.gridMetrics region (initRegionMetrics metrics region now) }
  else
    { s4 with gridMetrics := mset s4.gridMetrics region (bumpRegionMetrics metrics now) }

/-- Function `registerUser(_region)`; `sender` is `msg.sender`.  When the sender
already has a (non-empty) region, it is first removed from that
region's user list (swap-with-last-and-pop) and the region's
participant count is decremented — a checked decrement that reverts at
zero.  The source performs no validation of `_region` whatsoever. -/
def registerUser (s : LState) (sender : Nat) (region : String) (now : Nat) :
    Except Err LState :=
  if 0 < (s.userRegion sender).length then
    let oldRegion := s.userRegion sender
    let oldUsers' := swapPopFirst (s.regionUsers oldRegion) sender
    let s1 : LState := { s with regionUsers := mset s.regionUsers oldRegion oldUsers' }
    if (s1.gridMetrics oldRegion).participantCount = 0 then .error .underflow
    else
      let g1 := mset s1.gridMetrics oldRegion (decRegionMetrics (s1.gridMetrics oldRegion))
      let s2 : LState := { s1 with gridMetrics := g1 }
      .ok (registerTail s2 sender region now)
  else .ok (registerTail s sender region now)

/-! ## Theorems -/

theorem mset_same {κ α : Type} [DecidableEq κ] (m : κ → α) (k : κ) (v : α) :
    mset m k v k = v := by simp [mset]

theorem mset_other {κ α : Type} [DecidableEq κ] (m : κ → α) (k a : κ) (v : α)
    (h : a ≠ k) : mset m k v a = m a := by simp [mset, h]

theorem callOk_false_iff {σ : Type} (r : Except Err σ) :
    callOk r = false ↔ ∃ e, r = .error e := by
  cases r <;> simp [callOk]

/-- Complete characterisation of the `mintCertificate` loop when the
remaining energy covers all `n` iterations (which the caller guarantees,
since `n = energyProduced / 100` and the loop starts with `remaining =
energyProduced`): every issued certificate carries exactly
`ENERGY_THRESHOLD` kWh, ids `nextCertificateId, …, nextCertificateId +
n - 1` are assigned in order to the generator, and no other storage
slot moves. -/
theorem mintLoop_spec (gen : Nat) (src loc : String) (now : Nat) :
    ∀ (n rem : Nat) (s : CertState), ENERGY_THRESHOLD * n ≤ rem →
      (mintLoop gen src loc now n rem s).nextCertificateId = s.nextCertificateId + n
      ∧ (∀ id, (mintLoop gen src loc now n rem s).certificates id =
          if s.nextCertificateId ≤ id ∧ id < s.nextCertificateId + n
          then { id := id, energyAmount := ENERGY_THRESHOLD, issuanceDate := now,
                 energySource := src, location := loc, isValid := true }
          else s.certificates id)
      ∧ (∀ id, (mintLoop gen src loc now n rem s).certificateToOwner id =
          if s.nextCertificateId ≤ id ∧ id < s.nextCertificateId + n
          then gen else s.certificateToOwner id)
      ∧ (mintLoop gen src loc now n rem s).ownedCertificates gen =
          s.ownedCertificates gen ++ List.range' s.nextCertificateId n
      ∧ (∀ a, a ≠ gen →
          (mintLoop gen src loc now n rem s).ownedCertificates a = s.ownedCertificates a)
      ∧ (mintLoop gen src loc now n rem s).certificateCount = s.certificateCount
      ∧ (mintLoop gen src loc now n rem s).validEnergySources = s.validEnergySources := by
  intro n
  induction n with
  | zero =>
    intro rem s _
    refine ⟨by simp [mintLoop], ?_, ?_, by simp [mintLoop, List.range'],
            fun a _ => by simp [mintLoop], by simp [mintLoop], by simp [mintLoop]⟩
    · intro id
      rw [if_neg (by omega)]
      simp [mintLoop]
    · intro id
      rw [if_neg (by omega)]
      simp [mintLoop]
  | succ n ih =>
    intro rem s h
    have h100 : ENERGY_THRESHOLD ≤ rem := by
      simp only [ENERGY_THRESHOLD] at *; omega
    have hrem : ENERGY_THRESHOLD * n ≤ rem - ENERGY_THRESHOLD := by
      simp only [ENERGY_THRESHOLD] at *; omega
    have hstep : mintLoop gen src loc now (n + 1) rem s =
        mintLoop gen src loc now n (rem - ENERGY_THRESHOLD)
          { s with
            certificates := mset s.certificates s.nextCertificateId
              { id := s.nextCertificateId, energyAmount := ENERGY_THRESHOLD,
                issuanceDate := now, energySource := src, location := loc, isValid := true }
            certificateToOwner := mset s.certificateToOwner s.nextCertificateId gen
            ownedCertificates := mset s.ownedCertificates gen
              (s.ownedCertificates gen ++ [s.nextCertificateId])
            nextCertificateId := s.nextCertificateId + 1 } := by
      simp only [mintLoop, if_pos h100]
    rw [hstep]
    obtain ⟨ih1, ih2, ih3, ih4, ih5, ih6, ih7⟩ := ih (rem - ENERGY_THRESHOLD) _ hrem
    refine ⟨by rw [ih1]; show s.nextCertificateId + 1 + n = s.nextCertificateId + (n + 1); omega,
            ?_, ?_, ?_, ?_, ih6, ih7⟩
    · intro id
      rw [ih2 id]
      simp only
      by_cases hlo : s.nextCertificateId + 1 ≤ id ∧ id < s.nextCertificateId + 1 + n
      · rw [if_pos hlo, if_pos (by omega)]
      · rw [if_neg hlo]
        by_cases hid : id = s.nextCertificateId
        · subst hid
          rw [if_pos (by omega), mset_same]
        · rw [if_neg (by omega), mset_other _ _ _ _ hid]
    · intro id
      rw [ih3 id]
      simp only
      by_cases hlo : s.nextCertificateId + 1 ≤ id ∧ id < s.nextCertificateId + 1 + n
      · rw [if_pos hlo, if_pos (by omega)]
      · rw [if_neg hlo]
        by_cases hid : id = s.nextCertificateId
        · subst hid
          rw [if_pos (by omega), mset_same]
        · rw [if_neg (by omega), mset_other _ _ _ _ hid]
    · rw [ih4]
      simp only [mset_same]
      rw [List.append_assoc]
      congr 1
    · intro a ha
      rw [ih5 a ha]
      simp only [mset_other _ _ _ _ ha]

/-- C2: a mint call with an allow-listed source and `energyProduced ≥
100` succeeds and creates exactly `⌊energyProduced / 100⌋` certificates,
each of exactly 100 kWh, with fresh consecutive (hence monotonically
increasing) ids assigned to the generator; the sub-threshold remainder
is credited to no certificate (the ids outside the fresh range are
untouched, as are other owners' holdings); a call with an unknown
source or `energyProduced < 100` reverts, creating nothing. -/
theorem mint_exact_certificates :
    (∀ (s : CertState) (gen e : Nat) (src loc : String) (now : Nat),
      s.validEnergySources src = true → ENERGY_THRESHOLD ≤ e →
      ∃ s', mintCertificate s gen e src loc now = .ok s'
        ∧ s'.nextCertificateId = s.nextCertificateId + e / ENERGY_THRESHOLD
        ∧ (∀ k, k < e / ENERGY_THRESHOLD →
            s'.certificates (s.nextCertificateId + k) =
              { id := s.nextCertificateId + k, energyAmount := ENERGY_THRESHOLD,
                issuanceDate := now, energySource := src, location := loc, isValid := true }
            ∧ s'.certificateToOwner (s.nextCertificateId + k) = gen)
        ∧ s'.ownedCertificates gen =
            s.ownedCertificates gen ++ List.range' s.nextCertificateId (e / ENERGY_THRESHOLD)
        ∧ s'.certificateCount gen = s.certificateCount gen + e / ENERGY_THRESHOLD
        ∧ ENERGY_THRESHOLD * (e / ENERGY_THRESHOLD) ≤ e
        ∧ e < ENERGY_THRESHOLD * (e / ENERGY_THRESHOLD) + ENERGY_THRESHOLD
        ∧ (∀ id, id < s.nextCertificateId ∨ s.nextCertificateId + e / ENERGY_THRESHOLD ≤ id →
            s'.certificates id = s.certificates id
            ∧ s'.certificateToOwner id = s.certificateToOwner id)
        ∧ (∀ a, a ≠ gen →
            s'.ownedCertificates a = s.ownedCertificates a
            ∧ s'.certificateCount a = s.certificateCount a))
    ∧ (∀ (s : CertState) (gen e : Nat) (src loc : String) (now : Nat),
        s.validEnergySources src = false ∨ e < ENERGY_THRESHOLD →
        ∃ err, mintCertificate s gen e src loc now = .error err) := by
  constructor
  · intro s gen e src loc now hsrc hthr
    have hdiv : ENERGY_THRESHOLD * (e / ENERGY_THRESHOLD) ≤ e := by
      rw [Nat.mul_comm]; exact Nat.div_mul_le_self e ENERGY_THRESHOLD
    obtain ⟨h1, h2, h3, h4, h5, h6, _⟩ :=
      mintLoop_spec gen src loc now (e / ENERGY_THRESHOLD) e s hdiv
    refine ⟨{ mintLoop gen src loc now (e / ENERGY_THRESHOLD) e s with
              certificateCount :=
                mset (mintLoop gen src loc now (e / ENERGY_THRESHOLD) e s).certificateCount gen
                  ((mintLoop gen src loc now (e / ENERGY_THRESHOLD) e s).certificateCount gen
                    + e / ENERGY_THRESHOLD) },
           ?_, ?_, ?_, ?_, ?_, hdiv, ?_, ?_, ?_⟩
    · simp only [mintCertificate, hsrc, Bool.true_eq_false, if_false,
        if_neg (by omega : ¬ e < ENERGY_THRESHOLD)]
    · exact h1
    · intro k hk
      refine ⟨?_, ?_⟩
      · show (mintLoop gen src loc now (e / ENERGY_THRESHOLD) e s).certificates _ = _
        rw [h2]
        rw [if_pos (by omega)]
      · show (mintLoop gen src loc now (e / ENERGY_THRESHOLD) e s).certificateToOwner _ = _
        rw [h3]
        rw [if_pos (by omega)]
    · exact h4
    · show mset _ gen _ gen = _
      rw [mset_same, h6]
    · have hdm := Nat.div_add_mod e ENERGY_THRESHOLD
      have hml : e % ENERGY_THRESHOLD < ENERGY_THRESHOLD := Nat.mod_lt e (by decide)
      omega
    · intro id hid
      constructor
      · show (mintLoop gen src loc now (e / ENERGY_THRESHOLD) e s).certificates _ = _
        rw [h2, if_neg (by omega)]
      · show (mintLoop gen src loc now (e / ENERGY_THRESHOLD) e s).certificateToOwner _ = _
        rw [h3, if_neg (by omega)]
    · intro a ha
      refine ⟨h5 a ha, ?_⟩
      show mset _ gen _ a = _
      rw [mset_other _ _ _ _ ha, h6]
  · intro s gen e src loc now h
    rcases h with h | h
    · exact ⟨Err.invalidEnergySource, by simp [mintCertificate, h]⟩
    · by_cases hsrc : s.validEnergySources src = false
      · exact ⟨Err.invalidEnergySource, by simp [mintCertificate, hsrc]⟩
      · exact ⟨Err.belowThreshold, by simp [mintCertificate, hsrc, h]⟩

/-- Witness for C2: minting 250 kWh of solar energy from the initial
state yields exactly 2 certificates of 100 kWh (ids 1 and 2), a count
of 2 for the generator, and the 50 kWh remainder is uncertified. -/
theorem mint_exact_certificates_witness :
    callOk (mintCertificate initCertState 1 250 "solar" "CA" 5) = true
    ∧ (applyTx (mintCertificate initCertState 1 250 "solar" "CA" 5) initCertState).certificateCount 1 = 2
    ∧ (applyTx (mintCertificate initCertState 1 250 "solar" "CA" 5) initCertState).ownedCertificates 1 = [1, 2]
    ∧ (applyTx (mintCertificate initCertState 1 250 "solar" "CA" 5) initCertState).certificates 1 =
        { id := 1, energyAmount := 100, issuanceDate := 5, energySource := "solar",
          location := "CA", isValid := true }
    ∧ (applyTx (mintCertificate initCertState 1 250 "solar" "CA" 5) initCertState).certificates 3 = zeroCert := by
  obtain ⟨s', hok, hnext, hin, howned, hcount, _, _, hout, _⟩ :=
    mint_exact_certificates.1 initCertState 1 250 "solar" "CA" 5 (by decide) (by decide)
  rw [hok]
  have h1 := (hin 0 (by decide)).1
  refine ⟨rfl, ?_, ?_, ?_, ?_⟩
  · simpa [initCertState, applyTx] using hcount
  · simpa [initCertState, applyTx, List.range'] using howned
  · simpa [initCertState, applyTx] using h1
  · have h3 := (hout 3 (by right; decide)).1
    simpa [initCertState, applyTx] using h3

/-- Success inversion for `transferCertificate`: a committed transfer
implies every `require` held, the checked decrement did not underflow,
and the post-state is the one the body constructs. -/
theorem transferCertificate_ok_inv {s s' : CertState} {sender recipient cid : Nat}
    (h : transferCertificate s sender recipient cid = .ok s') :
    recipient ≠ 0
    ∧ s.certificateToOwner cid = sender
    ∧ (s.certificates cid).isValid = true
    ∧ 1 ≤ s.certificateCount sender
    ∧ s' = { s with
             ownedCertificates :=
               mset (mset s.ownedCertificates sender (swapPopFirst (s.ownedCertificates sender) cid))
                 recipient
                 ((mset s.ownedCertificates sender (swapPopFirst (s.ownedCertificates sender) cid))
                    recipient ++ [cid])
             certificateToOwner := mset s.certificateToOwner cid recipient
             certificateCount :=
               mset (mset s.certificateCount sender (s.certificateCount sender - 1)) recipient
                 ((mset s.certificateCount sender (s.certificateCount sender - 1)) recipient + 1) } := by
  by_cases h0 : recipient = 0
  · rw [transferCertificate, if_pos h0] at h; exact Except.noConfusion h
  rw [transferCertificate, if_neg h0] at h
  by_cases h1 : s.certificateToOwner cid ≠ sender
  · rw [if_pos h1] at h; exact Except.noConfusion h
  rw [if_neg h1] at h
  by_cases h2 : (s.certificates cid).isValid = false
  · rw [if_pos h2] at h; exact Except.noConfusion h
  rw [if_neg h2] at h
  by_cases h3 : s.certificateCount sender = 0
  · rw [if_pos h3] at h; exact Except.noConfusion h
  rw [if_neg h3] at h
  injection h with h
  exact ⟨h0, not_not.mp h1, by simpa using h2, by omega, h.symm⟩

/-- Success inversion for `redeemCertificate`. -/
theorem redeemCertificate_ok_inv {s s' : CertState} {sender cid : Nat}
    (h : redeemCertificate s sender cid = .ok s') :
    s.certificateToOwner cid = sender
    ∧ (s.certificates cid).isValid = true
    ∧ 1 ≤ s.certificateCount sender
    ∧ s' = { s with
             certificates := mset s.certificates cid { s.certificates cid with isValid := false }
             certificateCount := mset s.certificateCount sender (s.certificateCount sender - 1) } := by
  by_cases h1 : s.certificateToOwner cid ≠ sender
  · rw [redeemCertificate, if_pos h1] at h; exact Except.noConfusion h
  rw [redeemCertificate, if_neg h1] at h
  by_cases h2 : (s.certificates cid).isValid = false
  · rw [if_pos h2] at h; exact Except.noConfusion h
  rw [if_neg h2] at h
  by_cases h3 : s.certificateCount sender = 0
  · rw [if_pos h3] at h; exact Except.noConfusion h
  rw [if_neg h3] at h
  injection h with h
  exact ⟨not_not.mp h1, by simpa using h2, by omega, h.symm⟩

/-- Success inversion for `mintCertificate`. -/
theorem mintCertificate_ok_inv {s s' : CertState} {gen e : Nat} {src loc : String} {now : Nat}
    (h : mintCertificate s gen e src loc now = .ok s') :
    s.validEnergySources src = true
    ∧ ENERGY_THRESHOLD ≤ e
    ∧ s' = { mintLoop gen src loc now (e / ENERGY_THRESHOLD) e s with
             certificateCount :=
               mset (mintLoop gen src loc now (e / ENERGY_THRESHOLD) e s).certificateCount gen
                 ((mintLoop gen src loc now (e / ENERGY_THRESHOLD) e s).certificateCount gen
                   + e / ENERGY_THRESHOLD) } := by
  by_cases h1 : s.validEnergySources src = false
  · rw [mintCertificate, if_pos h1] at h; exact Except.noConfusion h
  rw [mintCertificate, if_neg h1] at h
  by_cases h2 : e < ENERGY_THRESHOLD
  · rw [if_pos h2] at h; exact Except.noConfusion h
  rw [if_neg h2] at h
  injection h with h
  exact ⟨by simpa using h1, by omega, h.symm⟩

/-- C5: a successful certificate transfer makes the recipient the
recorded owner; when recipient and old owner differ, the old owner's
valid-certificate count drops by exactly 1 and the recipient's rises by
exactly 1; every other owner's count is untouched, and the sum of
counts over any set of owners containing both parties is invariant. -/
theorem transfer_conserves_counts (s s' : CertState) (sender recipient cid : Nat)
    (h : transferCertificate s sender recipient cid = .ok s') :
    s'.certificateToOwner cid = recipient
    ∧ 1 ≤ s.certificateCount sender
    ∧ (recipient ≠ sender →
        s'.certificateCount sender = s.certificateCount sender - 1
        ∧ s'.certificateCount recipient = s.certificateCount recipient + 1)
    ∧ (∀ a, a ≠ sender → a ≠ recipient → s'.certificateCount a = s.certificateCount a)
    ∧ (∀ A : Finset Nat, sender ∈ A → recipient ∈ A →
        ∑ a in A, s'.certificateCount a = ∑ a in A, s.certificateCount a) := by
  obtain ⟨h0, hown, hval, hge, hs'⟩ := transferCertificate_ok_inv h
  have hcnt : ∀ a, s'.certificateCount a =
      mset (mset s.certificateCount sender (s.certificateCount sender - 1)) recipient
        (mset s.certificateCount sender (s.certificateCount sender - 1) recipient + 1) a :=
    fun a => by rw [hs']
  have howner : s'.certificateToOwner cid = recipient := by
    rw [hs']; exact mset_same _ _ _
  refine ⟨howner, hge, ?_, ?_, ?_⟩
  · intro hrs
    constructor
    · rw [hcnt sender, mset_other _ _ _ _ (Ne.symm hrs), mset_same]
    · rw [hcnt recipient, mset_same, mset_other _ _ _ _ hrs]
  · intro a has har
    rw [hcnt a, mset_other _ _ _ _ har, mset_other _ _ _ _ has]
  · intro A hsA hrA
    by_cases hrs : recipient = sender
    · subst hrs
      refine Finset.sum_congr rfl fun a _ => ?_
      rw [hcnt a]
      by_cases ha : a = recipient
      · subst ha
        rw [mset_same, mset_same]
        omega
      · rw [mset_other _ _ _ _ ha, mset_other _ _ _ _ ha]
    · have hsmem : sender ∈ A \ {recipient} := by
        simp only [Finset.mem_sdiff, Finset.mem_singleton]
        exact ⟨hsA, fun hc => hrs (hc ▸ rfl)⟩
      have hupd : ∀ a, s'.certificateCount a
          = Function.update (Function.update s.certificateCount sender
              (s.certificateCount sender - 1)) recipient (s.certificateCount recipient + 1) a := by
        intro a
        rw [hcnt a]
        by_cases ha : a = recipient
        · subst ha
          rw [mset_same, mset_other _ _ _ _ hrs, Function.update_same]
        · by_cases ha2 : a = sender
          · subst ha2
            rw [mset_other _ _ _ _ ha, mset_same,
              Function.update_noteq ha, Function.update_same]
          · rw [mset_other _ _ _ _ ha, mset_other _ _ _ _ ha2,
              Function.update_noteq ha, Function.update_noteq ha2]
      calc ∑ a in A, s'.certificateCount a
          = ∑ a in A, Function.update (Function.update s.certificateCount sender
              (s.certificateCount sender - 1)) recipient (s.certificateCount recipient + 1) a :=
            Finset.sum_congr rfl fun a _ => hupd a
        _ = (s.certificateCount recipient + 1) +
              ∑ a in A \ {recipient}, Function.update s.certificateCount sender
                (s.certificateCount sender - 1) a := Finset.sum_update_of_mem hrA _ _
        _ = (s.certificateCount recipient + 1) +
              ((s.certificateCount sender - 1) +
                ∑ a in (A \ {recipient}) \ {sender}, s.certificateCount a) := by
            rw [Finset.sum_update_of_mem hsmem _ _]
        _ = ∑ a in A, s.certificateCount a := by
            have e1 : ∑ a in A, s.certificateCount a
                = (∑ a in A \ {recipient}, s.certificateCount a) + s.certificateCount recipient :=
              Finset.sum_eq_sum_diff_singleton_add hrA _
            have e2 : ∑ a in A \ {recipient}, s.certificateCount a
                = (∑ a in (A \ {recipient}) \ {sender}, s.certificateCount a) + s.certificateCount sender :=
              Finset.sum_eq_sum_diff_singleton_add hsmem _
            omega

/-- Witness for C5: owner 1 mints one 100 kWh certificate (id 1) and
transfers it to owner 2; afterwards 2 owns it, the counts are 0 and 1,
and the total over the owner set is unchanged. -/
theorem transfer_conserves_counts_witness :
    ((applyTx (transferCertificate
        (applyTx (mintCertificate initCertState 1 100 "solar" "CA" 0) initCertState) 1 2 1)
        (applyTx (mintCertificate initCertState 1 100 "solar" "CA" 0) initCertState)).certificateToOwner 1 = 2)
    ∧ ((applyTx (transferCertificate
        (applyTx (mintCertificate initCertState 1 100 "solar" "CA" 0) initCertState) 1 2 1)
        (applyTx (mintCertificate initCertState 1 100 "solar" "CA" 0) initCertState)).certificateCount 1 = 0)
    ∧ ((applyTx (transferCertificate
        (applyTx (mintCertificate initCertState 1 100 "solar" "CA" 0) initCertState) 1 2 1)
        (applyTx (mintCertificate initCertState 1 100 "solar" "CA" 0) initCertState)).certificateCount 2 = 1)
    ∧ (∑ a in ({1, 2} : Finset Nat),
        (applyTx (transferCertificate
          (applyTx (mintCertificate initCertState 1 100 "solar" "CA" 0) initCertState) 1 2 1)
          (applyTx (mintCertificate initCertState 1 100 "solar" "CA" 0) initCertState)).certificateCount a
        = ∑ a in ({1, 2} : Finset Nat),
          (applyTx (mintCertificate initCertState 1 100 "solar" "CA" 0) initCertState).certificateCount a) := by
  have hok : transferCertificate
      (applyTx (mintCertificate initCertState 1 100 "solar" "CA" 0) initCertState) 1 2 1
      = .ok (applyTx (transferCertificate
          (applyTx (mintCertificate initCertState 1 100 "solar" "CA" 0) initCertState) 1 2 1)
          (applyTx (mintCertificate initCertState 1 100 "solar" "CA" 0) initCertState)) := rfl
  obtain ⟨w1, w2, w3, w4, w5⟩ := transfer_conserves_counts _ _ 1 2 1 hok
  refine ⟨w1, ?_, ?_, w5 {1, 2} (by decide) (by decide)⟩
  · rw [(w3 (by decide)).1]; decide
  · rw [(w3 (by decide)).2]; decide

/-- In every reachable certificate-ledger state, ids are assigned
starting from 1, and any id never minted (0, or at least the next
counter value) still holds the zero-initialised struct and the zero
owner. -/
theorem certReach_unminted (s : CertState) (h : CertReach s) :
    1 ≤ s.nextCertificateId
    ∧ ∀ cid, cid = 0 ∨ s.nextCertificateId ≤ cid →
        s.certificates cid = zeroCert ∧ s.certificateToOwner cid = 0 := by
  induction h with
  | init => exact ⟨by decide, fun cid _ => ⟨rfl, rfl⟩⟩
  | mint s gen e src loc now s' hr hok ih =>
    obtain ⟨ihn, ihu⟩ := ih
    obtain ⟨hsrc, hthr, hs'⟩ := mintCertificate_ok_inv hok
    have hdiv : ENERGY_THRESHOLD * (e / ENERGY_THRESHOLD) ≤ e := by
      rw [Nat.mul_comm]; exact Nat.div_mul_le_self e ENERGY_THRESHOLD
    obtain ⟨h1, h2, h3, _, _, _, _⟩ :=
      mintLoop_spec gen src loc now (e / ENERGY_THRESHOLD) e s hdiv
    have hnext : s'.nextCertificateId = s.nextCertificateId + e / ENERGY_THRESHOLD := by
      rw [hs']; exact h1
    obtain ⟨q, hq⟩ : ∃ q, q = e / ENERGY_THRESHOLD := ⟨_, rfl⟩
    rw [← hq] at hnext
    refine ⟨by rw [hnext]; omega, ?_⟩
    intro cid hcid
    rw [hnext] at hcid
    have hout : ¬ (s.nextCertificateId ≤ cid ∧ cid < s.nextCertificateId + e / ENERGY_THRESHOLD) := by
      rw [← hq]
      rcases hcid with hcid | hcid
      · subst hcid; omega
      · omega
    have hold := ihu cid (by
      rcases hcid with hcid | hcid
      · exact Or.inl hcid
      · exact Or.inr (by omega))
    constructor
    · rw [hs']
      show (mintLoop gen src loc now (e / ENERGY_THRESHOLD) e s).certificates cid = zeroCert
      rw [h2, if_neg hout]
      exact hold.1
    · rw [hs']
      show (mintLoop gen src loc now (e / ENERGY_THRESHOLD) e s).certificateToOwner cid = 0
      rw [h3, if_neg hout]
      exact hold.2
  | xfer s sender recipient cid s' hr hok ih =>
    obtain ⟨h0, hown, hval, _, hs'⟩ := transferCertificate_ok_inv hok
    have hminted : ¬ (cid = 0 ∨ s.nextCertificateId ≤ cid) := by
      intro hc
      have := (ih.2 cid hc).1
      rw [this] at hval
      exact absurd hval (by simp [zeroCert])
    have hnext : s'.nextCertificateId = s.nextCertificateId := by rw [hs']
    refine ⟨by rw [hnext]; exact ih.1, ?_⟩
    intro id hid
    rw [hnext] at hid
    have hne : id ≠ cid := by
      intro hc; subst hc; exact hminted hid
    have hold := ih.2 id hid
    constructor
    · rw [hs']; exact hold.1
    · rw [hs']
      show mset s.certificateToOwner cid recipient id = 0
      rw [mset_other _ _ _ _ hne]
      exact hold.2
  | redeem s sender cid s' hr hok ih =>
    obtain ⟨hown, hval, _, hs'⟩ := redeemCertificate_ok_inv hok
    have hminted : ¬ (cid = 0 ∨ s.nextCertificateId ≤ cid) := by
      intro hc
      have := (ih.2 cid hc).1
      rw [this] at hval
      exact absurd hval (by simp [zeroCert])
    have hnext : s'.nextCertificateId = s.nextCertificateId := by rw [hs']
    refine ⟨by rw [hnext]; exact ih.1, ?_⟩
    intro id hid
    rw [hnext] at hid
    have hne : id ≠ cid := by
      intro hc; subst hc; exact hminted hid
    have hold := ih.2 id hid
    constructor
    · rw [hs']
      show mset s.certificates cid _ id = zeroCert
      rw [mset_other _ _ _ _ hne]
      exact hold.1
    · rw [hs']; exact hold.2
  | addSrc s caller src _ ih => exact ih
  | removeSrc s caller src _ ih => exact ih

/-- C8 counterexample: the claim says the certificate-detail query on a
never-minted id fails with NotFound; the source has no such check — at
the fresh id 1 of the constructor state `getCertificateDetailsSpec`
(the behaviour the spec describes) reports NotFound, while the source's
`getCertificateDetails` returns the zero-initialised data. -/
theorem cert_details_notFound_counterexample :
    getCertificateDetailsSpec initCertState 1 = .error .notFound
    ∧ getCertificateDetails initCertState 1 = (0, 0, 0, "", "", false, 0) := by
  exact ⟨rfl, rfl⟩

/-- C8 (amended): for every reachable state, querying detail of a
never-minted id succeeds and returns the zero-initialised certificate
record with the zero owner (it does not fail); for every id the query
returns the stored certificate fields together with the current
owner. -/
theorem cert_details_total (sr : CertState) (hsr : CertReach sr) (cid : Nat)
    (hun : cid = 0 ∨ sr.nextCertificateId ≤ cid) :
    getCertificateDetails sr cid = (0, 0, 0, "", "", false, 0)
    ∧ ∀ (s : CertState) (id : Nat),
        getCertificateDetails s id =
          ((s.certificates id).id, (s.certificates id).energyAmount,
           (s.certificates id).issuanceDate, (s.certificates id).energySource,
           (s.certificates id).location, (s.certificates id).isValid,
           s.certificateToOwner id) := by
  obtain ⟨hc, ho⟩ := (certReach_unminted sr hsr).2 cid hun
  constructor
  · show ((sr.certificates cid).id, _, _, _, _, _, sr.certificateToOwner cid) = _
    rw [hc, ho]
    rfl
  · intro s id
    rfl

/-- Witness for C8 (amended): the constructor state is reachable and id
1 is not yet minted there, so the detail query returns the zero
record. -/
theorem cert_details_total_witness :
    getCertificateDetails initCertState 1 = (0, 0, 0, "", "", false, 0) :=
  (cert_details_total initCertState CertReach.init 1 (Or.inr (by decide))).1

/-- C10: the energy-source allow-list has no authorization check: any
caller can add a source, after which minting with that source passes
the source-validity check (and succeeds outright at or above the
threshold), and any caller can remove a source, after which minting
with it reverts with the invalid-source error. -/
theorem energy_source_open_access :
    ∀ (s : CertState) (caller : Nat) (source : String),
      (addEnergySource s caller source).validEnergySources source = true
      ∧ (∀ gen e loc now, ENERGY_THRESHOLD ≤ e →
          callOk (mintCertificate (addEnergySource s caller source) gen e source loc now) = true)
      ∧ (removeEnergySource s caller source).validEnergySources source = false
      ∧ (∀ gen e loc now,
          mintCertificate (removeEnergySource s caller source) gen e source loc now =
            .error .invalidEnergySource) := by
  intro s caller source
  refine ⟨mset_same _ _ _, ?_, mset_same _ _ _, ?_⟩
  · intro gen e loc now he
    rw [mintCertificate, if_neg (by show ¬ mset _ _ _ _ = false; rw [mset_same]; simp),
      if_neg (by omega)]
    rfl
  · intro gen e loc now
    rw [mintCertificate, if_pos (by show mset _ _ _ _ = false; rw [mset_same])]

/-- Witness for C10: caller 9 (not the deployer) adds the source
"tidal", minting 100 kWh of tidal energy then succeeds; caller 9
removes "solar", minting solar energy then reverts. -/
theorem energy_source_open_access_witness :
    (addEnergySource initCertState 9 "tidal").validEnergySources "tidal" = true
    ∧ callOk (mintCertificate (addEnergySource initCertState 9 "tidal") 1 100 "tidal" "CA" 0) = true
    ∧ (removeEnergySource initCertState 9 "solar").validEnergySources "solar" = false
    ∧ mintCertificate (removeEnergySource initCertState 9 "solar") 1 100 "solar" "CA" 0 =
        .error .invalidEnergySource := by
  obtain ⟨w1, w2, w3, w4⟩ := energy_source_open_access initCertState 9 "tidal"
  obtain ⟨_, _, w3', w4'⟩ := energy_source_open_access initCertState 9 "solar"
  exact ⟨w1, w2 1 100 "CA" 0 (by decide), w3', w4' 1 100 "CA" 0⟩

/-- Success inversion for `acceptOffer`: a committed acceptance implies
every `require` held, every executed transfer succeeded, no arithmetic
check fired, and the post-state is exactly the one the body builds. -/
theorem acceptOffer_ok_inv {s s' : TState} {ctx : Ctx} {offerId energyAmount : Nat}
    (h : acceptOffer s ctx offerId energyAmount = .ok s') :
    ∃ offer, s.offers[offerId]? = some offer
      ∧ offer.isActive = true
      ∧ ctx.now < offer.expirationTime
      ∧ offer.minPurchaseAmount ≤ energyAmount
      ∧ energyAmount ≤ offer.energyAmount
      ∧ energyAmount * offer.pricePerUnit ≤ UMAX
      ∧ energyAmount * offer.pricePerUnit ≤ ctx.msgValue
      ∧ energyAmount * offer.pricePerUnit * s.platformFeeRate ≤ UMAX
      ∧ energyAmount * offer.pricePerUnit * s.platformFeeRate / 10000
          ≤ energyAmount * offer.pricePerUnit
      ∧ (0 < energyAmount * offer.pricePerUnit * s.platformFeeRate / 10000 →
          ctx.feeOk = true)
      ∧ ctx.sellerOk = true
      ∧ (energyAmount * offer.pricePerUnit < ctx.msgValue → ctx.refundOk = true)
      ∧ ∃ m', updateMetricsAccept s.marketMetrics energyAmount
                (energyAmount * offer.pricePerUnit) offer.region = .ok m'
          ∧ s' = { s with
                   trades := s.trades ++ [acceptedTrade s ctx offer energyAmount]
                   sellerTrades := mset s.sellerTrades offer.seller
                     (s.sellerTrades offer.seller ++ [s.trades.length])
                   buyerTrades := mset s.buyerTrades ctx.sender
                     (s.buyerTrades ctx.sender ++ [s.trades.length])
                   offers := s.offers.set offerId (acceptedOffer offer energyAmount)
                   marketMetrics := m'
                   payouts := acceptPayouts s ctx offer energyAmount } := by
  rcases hoff : s.offers[offerId]? with _ | offer
  · rw [acceptOffer] at h
    rw [hoff] at h
    exact Except.noConfusion h
  rw [acceptOffer] at h
  rw [hoff] at h
  simp only [] at h
  refine ⟨offer, rfl, ?_⟩
  by_cases h1 : offer.isActive = false
  · rw [if_pos h1] at h; exact Except.noConfusion h
  rw [if_neg h1] at h
  by_cases h2 : offer.expirationTime ≤ ctx.now
  · rw [if_pos h2] at h; exact Except.noConfusion h
  rw [if_neg h2] at h
  by_cases h3 : energyAmount < offer.minPurchaseAmount
  · rw [if_pos h3] at h; exact Except.noConfusion h
  rw [if_neg h3] at h
  by_cases h4 : offer.energyAmount < energyAmount
  · rw [if_pos h4] at h; exact Except.noConfusion h
  rw [if_neg h4] at h
  by_cases h5 : UMAX < energyAmount * offer.pricePerUnit
  · rw [if_pos h5] at h; exact Except.noConfusion h
  rw [if_neg h5] at h
  by_cases h6 : ctx.msgValue < energyAmount * offer.pricePerUnit
  · rw [if_pos h6] at h; exact Except.noConfusion h
  rw [if_neg h6] at h
  rcases hm : updateMetricsAccept s.marketMetrics energyAmount
      (energyAmount * offer.pricePerUnit) offer.region with err | m'
  · rw [hm] at h; exact Except.noConfusion h
  rw [hm] at h
  simp only [] at h
  by_cases h7 : UMAX < energyAmount * offer.pricePerUnit * s.platformFeeRate
  · rw [if_pos h7] at h; exact Except.noConfusion h
  rw [if_neg h7] at h
  by_cases h8 : energyAmount * offer.pricePerUnit
      < energyAmount * offer.pricePerUnit * s.platformFeeRate / 10000
  · rw [if_pos h8] at h; exact Except.noConfusion h
  rw [if_neg h8] at h
  by_cases h9 : 0 < energyAmount * offer.pricePerUnit * s.platformFeeRate / 10000
      ∧ ctx.feeOk = false
  · rw [if_pos h9] at h; exact Except.noConfusion h
  rw [if_neg h9] at h
  by_cases h10 : ctx.sellerOk = false
  · rw [if_pos h10] at h; exact Except.noConfusion h
  rw [if_neg h10] at h
  by_cases h11 : energyAmount * offer.pricePerUnit < ctx.msgValue ∧ ctx.refundOk = false
  · rw [if_pos h11] at h; exact Except.noConfusion h
  rw [if_neg h11] at h
  injection h with h
  refine ⟨by simpa using h1, by omega, by omega, by omega, by omega, by omega, by omega,
          by omega, ?_, by simpa using h10, ?_, m', rfl, h.symm⟩
  · intro hpos
    rcases Bool.eq_false_or_eq_true ctx.feeOk with hf | hf
    · exact hf
    · exact absurd ⟨hpos, hf⟩ h9
  · intro hlt
    rcases Bool.eq_false_or_eq_true ctx.refundOk with hf | hf
    · exact hf
    · exact absurd ⟨hlt, hf⟩ h11

/-- Success inversion for `createOffer`. -/
theorem createOffer_ok_inv {s s' : TState} {ctx : Ctx}
    {energyAmount pricePerUnit minPurchaseAmount expirationTime : Nat}
    {region : String} {isCertified : Bool}
    (h : createOffer s ctx energyAmount pricePerUnit minPurchaseAmount expirationTime
          region isCertified = .ok s') :
    0 < energyAmount
    ∧ 0 < pricePerUnit
    ∧ 0 < minPurchaseAmount ∧ minPurchaseAmount ≤ energyAmount
    ∧ ctx.now < expirationTime
    ∧ (isCertified = true → energyAmount ≤ ctx.sellerCertCount * 100)
    ∧ s' = { s with
             offers := s.offers ++
               [{ id := s.offers.length, seller := ctx.sender
                  energyAmount := energyAmount, pricePerUnit := pricePerUnit
                  minPurchaseAmount := minPurchaseAmount, expirationTime := expirationTime
                  region := region, isCertified := isCertified, isActive := true }]
             sellerOffers := mset s.sellerOffers ctx.sender
               (s.sellerOffers ctx.sender ++ [s.offers.length])
             regionOffers := mset s.regionOffers region
               (s.regionOffers region ++ [s.offers.length]) } := by
  by_cases h1 : energyAmount = 0
  · rw [createOffer, if_pos h1] at h; exact Except.noConfusion h
  rw [createOffer, if_neg h1] at h
  by_cases h2 : pricePerUnit = 0
  · rw [if_pos h2] at h; exact Except.noConfusion h
  rw [if_neg h2] at h
  by_cases h3 : ¬ (0 < minPurchaseAmount ∧ minPurchaseAmount ≤ energyAmount)
  · rw [if_pos h3] at h; exact Except.noConfusion h
  rw [if_neg h3] at h
  by_cases h4 : ¬ (ctx.now < expirationTime)
  · rw [if_pos h4] at h; exact Except.noConfusion h
  rw [if_neg h4] at h
  by_cases h5 : isCertified = true ∧ UMAX < ctx.sellerCertCount * 100
  · rw [if_pos h5] at h; exact Except.noConfusion h
  rw [if_neg h5] at h
  by_cases h6 : isCertified = true ∧ ctx.sellerCertCount * 100 < energyAmount
  · rw [if_pos h6] at h; exact Except.noConfusion h
  rw [if_neg h6] at h
  injection h with h
  push_neg at h3 h4
  refine ⟨by omega, by omega, h3.1, h3.2, h4, ?_, h.symm⟩
  intro hc
  by_cases hlt : ctx.sellerCertCount * 100 < energyAmount
  · exact absurd ⟨hc, hlt⟩ h6
  · omega

/-- Success inversion for `updateOffer`. -/
theorem updateOffer_ok_inv {s s' : TState} {ctx : Ctx}
    {offerId energyAmount pricePerUnit minPurchaseAmount expirationTime : Nat}
    (h : updateOffer s ctx offerId energyAmount pricePerUnit minPurchaseAmount
          expirationTime = .ok s') :
    ∃ offer, s.offers[offerId]? = some offer
      ∧ offer.seller = ctx.sender
      ∧ offer.isActive = true
      ∧ 0 < energyAmount
      ∧ 0 < pricePerUnit
      ∧ 0 < minPurchaseAmount ∧ minPurchaseAmount ≤ energyAmount
      ∧ ctx.now < expirationTime
      ∧ s' = { s with offers := s.offers.set offerId
                        (updatedOffer offer energyAmount pricePerUnit minPurchaseAmount
                          expirationTime) } := by
  rcases hoff : s.offers[offerId]? with _ | offer
  · rw [updateOffer] at h
    rw [hoff] at h
    exact Except.noConfusion h
  rw [updateOffer] at h
  rw [hoff] at h
  simp only [] at h
  refine ⟨offer, rfl, ?_⟩
  by_cases h1 : offer.seller ≠ ctx.sender
  · rw [if_pos h1] at h; exact Except.noConfusion h
  rw [if_neg h1] at h
  by_cases h2 : offer.isActive = false
  · rw [if_pos h2] at h; exact Except.noConfusion h
  rw [if_neg h2] at h
  by_cases h3 : energyAmount = 0
  · rw [if_pos h3] at h; exact Except.noConfusion h
  rw [if_neg h3] at h
  by_cases h4 : pricePerUnit = 0
  · rw [if_pos h4] at h; exact Except.noConfusion h
  rw [if_neg h4] at h
  by_cases h5 : ¬ (0 < minPurchaseAmount ∧ minPurchaseAmount ≤ energyAmount)
  · rw [if_pos h5] at h; exact Except.noConfusion h
  rw [if_neg h5] at h
  by_cases h6 : ¬ (ctx.now < expirationTime)
  · rw [if_pos h6] at h; exact Except.noConfusion h
  rw [if_neg h6] at h
  injection h with h
  push_neg at h5 h6
  exact ⟨not_not.mp h1, by simpa using h2, by omega, by omega, h5.1, h5.2, h6, h.symm⟩

/-- Success inversion for `cancelOffer`. -/
theorem cancelOffer_ok_inv {s s' : TState} {ctx : Ctx} {offerId : Nat}
    (h : cancelOffer s ctx offerId = .ok s') :
    ∃ offer, s.offers[offerId]? = some offer
      ∧ offer.seller = ctx.sender
      ∧ offer.isActive = true
      ∧ s' = { s with offers := s.offers.set offerId ({ offer with isActive := false }) } := by
  rcases hoff : s.offers[offerId]? with _ | offer
  · rw [cancelOffer] at h
    rw [hoff] at h
    exact Except.noConfusion h
  rw [cancelOffer] at h
  rw [hoff] at h
  simp only [] at h
  refine ⟨offer, rfl, ?_⟩
  by_cases h1 : offer.seller ≠ ctx.sender
  · rw [if_pos h1] at h; exact Except.noConfusion h
  rw [if_neg h1] at h
  by_cases h2 : offer.isActive = false
  · rw [if_pos h2] at h; exact Except.noConfusion h
  rw [if_neg h2] at h
  injection h with h
  exact ⟨not_not.mp h1, by simpa using h2, h.symm⟩

/-- Success inversion for `recordTrade`. -/
theorem recordTrade_ok_inv {s s' : TState} {ctx : Ctx}
    {seller buyer energyAmount pricePerUnit : Nat} {region : String}
    (h : recordTrade s ctx seller buyer energyAmount pricePerUnit region = .ok s') :
    seller ≠ 0 ∧ buyer ≠ 0
    ∧ 0 < energyAmount
    ∧ energyAmount * pricePerUnit ≤ UMAX
    ∧ ∃ m', updateMetricsRecord s.marketMetrics energyAmount
              (energyAmount * pricePerUnit) region = .ok m'
        ∧ s' = { s with
                 trades := s.trades ++
                   [{ id := s.trades.length, seller := seller, buyer := buyer
                      energyAmount := energyAmount, pricePerUnit := pricePerUnit
                      totalPrice := energyAmount * pricePerUnit, timestamp := ctx.now
                      deliveryTime := ctx.now, region := region
                      status := .Completed, isCertified := false, certificateId := 0 }]
                 sellerTrades := mset s.sellerTrades seller
                   (s.sellerTrades seller ++ [s.trades.length])
                 buyerTrades := mset s.buyerTrades buyer
                   (s.buyerTrades buyer ++ [s.trades.length])
                 marketMetrics := m' } := by
  by_cases h1 : seller = 0 ∨ buyer = 0
  · rw [recordTrade, if_pos h1] at h; exact Except.noConfusion h
  rw [recordTrade, if_neg h1] at h
  by_cases h2 : energyAmount = 0
  · rw [if_pos h2] at h; exact Except.noConfusion h
  rw [if_neg h2] at h
  by_cases h3 : UMAX < energyAmount * pricePerUnit
  · rw [if_pos h3] at h; exact Except.noConfusion h
  rw [if_neg h3] at h
  simp only [] at h
  rcases hm : updateMetricsRecord s.marketMetrics energyAmount
      (energyAmount * pricePerUnit) region with err | m'
  · rw [hm] at h; exact Except.noConfusion h
  rw [hm] at h
  simp only [] at h
  injection h with h
  push_neg at h1
  exact ⟨h1.1, h1.2, by omega, by omega, m', rfl, h.symm⟩

/-- A committed `completeTrade` leaves the offer list untouched. -/
theorem completeTrade_ok_offers {s s' : TState} {ctx : Ctx} {tradeId : Nat}
    (h : completeTrade s ctx tradeId = .ok s') : s'.offers = s.offers := by
  rcases htr : s.trades[tradeId]? with _ | trade
  · rw [completeTrade] at h
    rw [htr] at h
    exact Except.noConfusion h
  rw [completeTrade] at h
  rw [htr] at h
  simp only [] at h
  by_cases h1 : trade.buyer ≠ ctx.sender
  · rw [if_pos h1] at h; exact Except.noConfusion h
  rw [if_neg h1] at h
  by_cases h2 : trade.status ≠ .Open
  · rw [if_pos h2] at h; exact Except.noConfusion h
  rw [if_neg h2] at h
  injection h with h
  rw [← h]

/-- A committed `cancelTrade` leaves the offer list untouched. -/
theorem cancelTrade_ok_offers {s s' : TState} {ctx : Ctx} {tradeId : Nat}
    (h : cancelTrade s ctx tradeId = .ok s') : s'.offers = s.offers := by
  rcases htr : s.trades[tradeId]? with _ | trade
  · rw [cancelTrade] at h
    rw [htr] at h
    exact Except.noConfusion h
  rw [cancelTrade] at h
  rw [htr] at h
  simp only [] at h
  by_cases h1 : trade.status ≠ .Open
  · rw [if_pos h1] at h; exact Except.noConfusion h
  rw [if_neg h1] at h
  by_cases h2 : ¬ (ctx.sender = trade.seller ∨ ctx.sender = trade.buyer ∨ ctx.sender = s.owner)
  · rw [if_pos h2] at h; exact Except.noConfusion h
  rw [if_neg h2] at h
  injection h with h
  rw [← h]

/-- A committed `setPlatformFeeRate` leaves the offer list untouched. -/
theorem setPlatformFeeRate_ok_offers {s s' : TState} {ctx : Ctx} {newFeeRate : Nat}
    (h : setPlatformFeeRate s ctx newFeeRate = .ok s') : s'.offers = s.offers := by
  by_cases h1 : ctx.sender ≠ s.owner
  · rw [setPlatformFeeRate, if_pos h1] at h; exact Except.noConfusion h
  rw [setPlatformFeeRate, if_neg h1] at h
  by_cases h2 : 1000 < newFeeRate
  · rw [if_pos h2] at h; exact Except.noConfusion h
  rw [if_neg h2] at h
  injection h with h
  rw [← h]

/-- A committed `setFeeRecipient` leaves the offer list untouched. -/
theorem setFeeRecipient_ok_offers {s s' : TState} {ctx : Ctx} {newFeeRecipient : Nat}
    (h : setFeeRecipient s ctx newFeeRecipient = .ok s') : s'.offers = s.offers := by
  by_cases h1 : ctx.sender ≠ s.owner
  · rw [setFeeRecipient, if_pos h1] at h; exact Except.noConfusion h
  rw [setFeeRecipient, if_neg h1] at h
  by_cases h2 : newFeeRecipient = 0
  · rw [if_pos h2] at h; exact Except.noConfusion h
  rw [if_neg h2] at h
  injection h with h
  rw [← h]

/-- C1: whenever an `acceptOffer` call fails — the offer is missing or
inactive or expired, the amount is below the minimum or above the
available energy, the payment is short, or any of the three executed
payment transfers (fee when a positive fee is due, seller payout,
refund when there is an overpayment) fails — the call reverts and the
post-transaction state is exactly the pre-call state: no trade, offer,
metric or payout mutation persists. -/
theorem acceptOffer_all_or_nothing (s : TState) (ctx : Ctx) (offerId energyAmount : Nat)
    (hfail : ∀ offer, s.offers[offerId]? = some offer →
      offer.isActive = false
      ∨ offer.expirationTime ≤ ctx.now
      ∨ energyAmount < offer.minPurchaseAmount
      ∨ offer.energyAmount < energyAmount
      ∨ ctx.msgValue < energyAmount * offer.pricePerUnit
      ∨ (0 < energyAmount * offer.pricePerUnit * s.platformFeeRate / 10000 ∧ ctx.feeOk = false)
      ∨ ctx.sellerOk = false
      ∨ (energyAmount * offer.pricePerUnit < ctx.msgValue ∧ ctx.refundOk = false)) :
    callOk (acceptOffer s ctx offerId energyAmount) = false
    ∧ applyTx (acceptOffer s ctx offerId energyAmount) s = s := by
  have hnotok : ∀ s', acceptOffer s ctx offerId energyAmount ≠ .ok s' := by
    intro s' hok
    obtain ⟨offer, hoff, ha, he, hmin, hmax, _, hpay, _, hfeele, hfee, hsell, hrefund, _⟩ :=
      acceptOffer_ok_inv hok
    rcases hfail offer hoff with hc | hc | hc | hc | hc | hc | hc | hc
    · rw [ha] at hc; exact Bool.noConfusion hc
    · omega
    · omega
    · omega
    · omega
    · rw [hfee hc.1] at hc; exact Bool.noConfusion hc.2
    · rw [hsell] at hc; exact Bool.noConfusion hc
    · rw [hrefund hc.1] at hc; exact Bool.noConfusion hc.2
  rcases hres : acceptOffer s ctx offerId energyAmount with err | s'
  · exact ⟨rfl, rfl⟩
  · exact absurd hres (hnotok s')

/-- Witness for C1: accepting offer 0 of `sampleLedger` at time 20 —
after its expiration time 10 — reverts and leaves the ledger state
byte-identical. -/
theorem acceptOffer_all_or_nothing_witness :
    callOk (acceptOffer sampleLedger ⟨2, 400, 20, 0, true, true, true⟩ 0 200) = false
    ∧ applyTx (acceptOffer sampleLedger ⟨2, 400, 20, 0, true, true, true⟩ 0 200) sampleLedger
        = sampleLedger := by
  refine acceptOffer_all_or_nothing sampleLedger ⟨2, 400, 20, 0, true, true, true⟩ 0 200 ?_
  intro offer hoff
  have : offer = sampleOffer := by
    have heval : sampleLedger.offers[0]? = some sampleOffer := rfl
    rw [heval] at hoff
    exact (Option.some.inj hoff).symm
  subst this
  right; left
  decide

/-- C3: a successful `acceptOffer` with payment `msg.value` splits the
funds exactly: the fee is `⌊totalPrice·feeRate/10000⌋` of `totalPrice =
energyAmount·pricePerUnit`, the seller receives `totalPrice - fee`, the
buyer is refunded `msg.value - totalPrice`, these are the only payouts
appended, and `sellerPayout + fee + refund = msg.value` — value is
conserved in exact integer arithmetic. -/
theorem acceptOffer_conserves_value (s s' : TState) (ctx : Ctx)
    (offerId energyAmount : Nat) (offer : EnergyOffer)
    (hoff : s.offers[offerId]? = some offer)
    (h : acceptOffer s ctx offerId energyAmount = .ok s') :
    energyAmount * offer.pricePerUnit * s.platformFeeRate / 10000
      ≤ energyAmount * offer.pricePerUnit
    ∧ energyAmount * offer.pricePerUnit ≤ ctx.msgValue
    ∧ s'.payouts = s.payouts
        ++ (if 0 < energyAmount * offer.pricePerUnit * s.platformFeeRate / 10000
            then [(s.feeRecipient, energyAmount * offer.pricePerUnit * s.platformFeeRate / 10000)]
            else [])
        ++ [(offer.seller, energyAmount * offer.pricePerUnit
              - energyAmount * offer.pricePerUnit * s.platformFeeRate / 10000)]
        ++ (if energyAmount * offer.pricePerUnit < ctx.msgValue
            then [(ctx.sender, ctx.msgValue - energyAmount * offer.pricePerUnit)] else [])
    ∧ (energyAmount * offer.pricePerUnit
          - energyAmount * offer.pricePerUnit * s.platformFeeRate / 10000)
        + energyAmount * offer.pricePerUnit * s.platformFeeRate / 10000
        + (ctx.msgValue - energyAmount * offer.pricePerUnit)
      = ctx.msgValue := by
  obtain ⟨offer0, hoff0, _, _, _, _, _, hpay, _, hfeele, _, _, _, m', _, hs'⟩ :=
    acceptOffer_ok_inv h
  rw [hoff] at hoff0
  obtain rfl : offer0 = offer := Option.some.inj hoff0.symm
  refine ⟨hfeele, hpay, ?_, by omega⟩
  rw [hs']
  rfl

/-- Witness for C3: buyer 2 accepts 200 kWh of offer 0 of
`sampleLedger` paying exactly 400 wei: totalPrice 400, fee
400·250/10000 = 10 to the fee recipient 7, payout 390 to seller 1, no
refund, and 390 + 10 + 0 = 400. -/
theorem acceptOffer_conserves_value_witness :
    (10 : Nat) ≤ 400
    ∧ (400 : Nat) ≤ 400
    ∧ (applyTx (acceptOffer sampleLedger ⟨2, 400, 5, 0, true, true, true⟩ 0 200)
        sampleLedger).payouts = [(7, 10), (1, 390)]
    ∧ (390 : Nat) + 10 + 0 = 400 := by
  have hok : acceptOffer sampleLedger ⟨2, 400, 5, 0, true, true, true⟩ 0 200
      = .ok (applyTx (acceptOffer sampleLedger ⟨2, 400, 5, 0, true, true, true⟩ 0 200)
          sampleLedger) := rfl
  obtain ⟨w1, w2, w3, w4⟩ := acceptOffer_conserves_value sampleLedger _
    ⟨2, 400, 5, 0, true, true, true⟩ 0 200 sampleOffer rfl hok
  refine ⟨w1, w2, ?_, w4⟩
  rw [w3]
  rfl

/-- C4: in every reachable ledger state, each active offer satisfies
`minPurchaseAmount ≤ energyAmount`; a successful acceptance whose
remainder falls strictly below the minimum purchase deactivates the
offer (even though the remaining energy may be positive); and both
`createOffer` and `updateOffer` reject a `minPurchaseAmount` outside
`(0, energyAmount]`. -/
theorem offer_min_le_energy_invariant :
    (∀ s, Reach s → ∀ o ∈ s.offers, o.isActive = true →
      o.minPurchaseAmount ≤ o.energyAmount)
    ∧ (∀ (s : TState) (ctx : Ctx) (offerId energyAmount : Nat) (s' : TState)
        (offer : EnergyOffer),
        s.offers[offerId]? = some offer →
        acceptOffer s ctx offerId energyAmount = .ok s' →
        offer.energyAmount - energyAmount < offer.minPurchaseAmount →
        s'.offers[offerId]? = some (acceptedOffer offer energyAmount)
        ∧ (acceptedOffer offer energyAmount).isActive = false)
    ∧ (∀ (s : TState) (ctx : Ctx) (e p mp ex : Nat) (r : String) (b : Bool),
        ¬ (0 < mp ∧ mp ≤ e) → callOk (createOffer s ctx e p mp ex r b) = false)
    ∧ (∀ (s : TState) (ctx : Ctx) (oid e p mp ex : Nat),
        ¬ (0 < mp ∧ mp ≤ e) → callOk (updateOffer s ctx oid e p mp ex) = false) := by
  refine ⟨?_, ?_, ?_, ?_⟩
  · intro s hs
    induction hs with
    | init deployer => intro o ho; exact absurd ho (by simp [initTState])
    | createStep s ctx e p mp ex r b s' hr hok ih =>
      obtain ⟨_, _, hmp0, hmpe, _, _, hs'⟩ := createOffer_ok_inv hok
      intro o ho hact
      rw [hs'] at ho
      rcases List.mem_append.mp ho with ho | ho
      · exact ih o ho hact
      · rw [List.mem_singleton.mp ho]
        exact hmpe
    | updateStep s ctx oid e p mp ex s' hr hok ih =>
      obtain ⟨offer, hoff, _, _, _, _, hmp0, hmpe, _, hs'⟩ := updateOffer_ok_inv hok
      intro o ho hact
      rw [hs'] at ho
      rcases List.mem_or_eq_of_mem_set ho with ho | ho
      · exact ih o ho hact
      · rw [ho]
        exact hmpe
    | cancelStep s ctx oid s' hr hok ih =>
      obtain ⟨offer, hoff, _, _, hs'⟩ := cancelOffer_ok_inv hok
      intro o ho hact
      rw [hs'] at ho
      rcases List.mem_or_eq_of_mem_set ho with ho | ho
      · exact ih o ho hact
      · rw [ho] at hact
        exact absurd hact (by simp)
    | acceptStep s ctx oid e s' hr hok ih =>
      obtain ⟨offer, hoff, _, _, _, _, _, _, _, _, _, _, _, m', _, hs'⟩ :=
        acceptOffer_ok_inv hok
      intro o ho hact
      rw [hs'] at ho
      rcases List.mem_or_eq_of_mem_set ho with ho | ho
      · exact ih o ho hact
      · rw [ho] at hact ⊢
        by_cases hrem : offer.energyAmount - e < offer.minPurchaseAmount
        · exact absurd hact (by simp [acceptedOffer, hrem])
        · show (acceptedOffer offer e).minPurchaseAmount ≤ (acceptedOffer offer e).energyAmount
          simp only [acceptedOffer]
          omega
    | recordStep s ctx sl br e p r s' hr hok ih =>
      obtain ⟨_, _, _, _, m', _, hs'⟩ := recordTrade_ok_inv hok
      intro o ho
      rw [hs'] at ho
      exact ih o ho
    | completeStep s ctx tid s' hr hok ih =>
      intro o ho
      rw [completeTrade_ok_offers hok] at ho
      exact ih o ho
    | cancelTradeStep s ctx tid s' hr hok ih =>
      intro o ho
      rw [cancelTrade_ok_offers hok] at ho
      exact ih o ho
    | setRateStep s ctx rate s' hr hok ih =>
      intro o ho
      rw [setPlatformFeeRate_ok_offers hok] at ho
      exact ih o ho
    | setRecipientStep s ctx addr s' hr hok ih =>
      intro o ho
      rw [setFeeRecipient_ok_offers hok] at ho
      exact ih o ho
  · intro s ctx offerId energyAmount s' offer hoff hok hrem
    obtain ⟨offer0, hoff0, _, _, _, _, _, _, _, _, _, _, _, m', _, hs'⟩ :=
      acceptOffer_ok_inv hok
    rw [hoff] at hoff0
    injection hoff0 with heq
    subst heq
    have hlt : offerId < s.offers.length := by
      obtain ⟨hlt, _⟩ := List.getElem?_eq_some.mp hoff
      exact hlt
    constructor
    · rw [hs']
      show (s.offers.set offerId (acceptedOffer offer energyAmount))[offerId]? = _
      rw [List.getElem?_set_self (by simpa using hlt)]
    · simp [acceptedOffer, hrem]
  · intro s ctx e p mp ex r b hmp
    by_cases h1 : e = 0
    · rw [createOffer, if_pos h1]; rfl
    rw [createOffer, if_neg h1]
    by_cases h2 : p = 0
    · rw [if_pos h2]; rfl
    rw [if_neg h2]
    rw [if_pos hmp]
    rfl
  · intro s ctx oid e p mp ex hmp
    rcases hoff : s.offers[oid]? with _ | offer
    · rw [updateOffer]
      rw [hoff]
      rfl
    rw [updateOffer]
    rw [hoff]
    simp only []
    by_cases h1 : offer.seller ≠ ctx.sender
    · rw [if_pos h1]; rfl
    rw [if_neg h1]
    by_cases h2 : offer.isActive = false
    · rw [if_pos h2]; rfl
    rw [if_neg h2]
    by_cases h3 : e = 0
    · rw [if_pos h3]; rfl
    rw [if_neg h3]
    by_cases h4 : p = 0
    · rw [if_pos h4]; rfl
    rw [if_neg h4]
    rw [if_pos hmp]
    rfl

/-- Witness for C4: in the reachable `sampleLedger` the stored offer
respects 100 ≤ 500; accepting 450 kWh leaves 50 < 100 remaining and
deactivates the offer; creating with minimum 0 and updating to minimum
600 > 500 are both rejected. -/
theorem offer_min_le_energy_invariant_witness :
    sampleOffer.minPurchaseAmount ≤ sampleOffer.energyAmount
    ∧ ((applyTx (acceptOffer sampleLedger ⟨2, 900, 5, 0, true, true, true⟩ 0 450)
          sampleLedger).offers[0]? = some (acceptedOffer sampleOffer 450)
        ∧ (acceptedOffer sampleOffer 450).isActive = false)
    ∧ callOk (createOffer (initTState 7) ⟨1, 0, 0, 5, true, true, true⟩ 500 2 0 10 "CA" false)
        = false
    ∧ callOk (updateOffer sampleLedger ⟨1, 0, 0, 5, true, true, true⟩ 0 500 2 600 10)
        = false := by
  obtain ⟨p1, p2, p3, p4⟩ := offer_min_le_energy_invariant
  have hreach : Reach sampleLedger :=
    Reach.createStep (initTState 7) ⟨1, 0, 0, 5, true, true, true⟩ 500 2 100 10 "CA" false
      sampleLedger (Reach.init 7) rfl
  refine ⟨?_, ?_, ?_, ?_⟩
  · exact p1 sampleLedger hreach sampleOffer (by decide) rfl
  · exact p2 sampleLedger ⟨2, 900, 5, 0, true, true, true⟩ 0 450 _ sampleOffer rfl rfl
      (by decide)
  · exact p3 (initTState 7) ⟨1, 0, 0, 5, true, true, true⟩ 500 2 0 10 "CA" false (by decide)
  · exact p4 sampleLedger ⟨1, 0, 0, 5, true, true, true⟩ 0 500 2 600 10 (by decide)

/-- C6 counterexample: `sampleLedgerCert` holds a certified active
offer created while the seller's certificate count was 5; the seller
later updates it to 10000 kWh at a moment when the certificate count
reads 0 — the claim demands an InsufficientCertificates failure, but
the call succeeds, while `createOffer` with the same inputs does fail:
`updateOffer` performs no certificate-capacity check. -/
theorem updateOffer_no_certificate_check_counterexample :
    callOk (updateOffer sampleLedgerCert ⟨1, 0, 0, 0, true, true, true⟩ 0 10000 2 100 10) = true
    ∧ createOffer sampleLedgerCert ⟨1, 0, 0, 0, true, true, true⟩ 10000 2 100 10 "CA" true
        = .error .insufficientCertificates := by
  exact ⟨rfl, rfl⟩

/-- C6 (amended): `updateOffer` applies the same plain input validation
as `createOffer` — seller-only on an active existing offer, positive
energy amount and price, `minPurchaseAmount ∈ (0, energyAmount]`,
future expiration — and nothing else: in particular the certified-offer
certificate-capacity check (`certificateCount·100 ≥ energyAmount`,
error InsufficientCertificates) is performed only by `createOffer`,
never on update.  The call succeeds exactly when those input checks
pass. -/
theorem updateOffer_validation (s : TState) (ctx : Ctx)
    (offerId energyAmount pricePerUnit minPurchaseAmount expirationTime : Nat) :
    callOk (updateOffer s ctx offerId energyAmount pricePerUnit minPurchaseAmount
        expirationTime) = true
    ↔ ∃ offer, s.offers[offerId]? = some offer
        ∧ offer.seller = ctx.sender
        ∧ offer.isActive = true
        ∧ 0 < energyAmount
        ∧ 0 < pricePerUnit
        ∧ 0 < minPurchaseAmount ∧ minPurchaseAmount ≤ energyAmount
        ∧ ctx.now < expirationTime := by
  constructor
  · intro hok
    rcases hres : updateOffer s ctx offerId energyAmount pricePerUnit minPurchaseAmount
        expirationTime with err | s'
    · rw [hres] at hok; exact Bool.noConfusion hok
    obtain ⟨offer, hoff, h1, h2, h3, h4, h5, h6, h7, _⟩ := updateOffer_ok_inv hres
    exact ⟨offer, hoff, h1, h2, h3, h4, h5, h6, h7⟩
  · rintro ⟨offer, hoff, h1, h2, h3, h4, h5, h6, h7⟩
    rw [updateOffer]
    rw [hoff]
    simp only []
    rw [if_neg (by simp [h1]), if_neg (by simp [h2]), if_neg (by omega), if_neg (by omega),
      if_neg (by push_neg; exact ⟨h5, h6⟩), if_neg (by omega)]
    rfl

/-- Witness for C6 (amended): the seller's update of offer 0 of
`sampleLedger` to 400 kWh at price 3 succeeds, matching the
characterisation at concrete inputs. -/
theorem updateOffer_validation_witness :
    callOk (updateOffer sampleLedger ⟨1, 0, 0, 0, true, true, true⟩ 0 400 3 100 10) = true := by
  refine (updateOffer_validation sampleLedger ⟨1, 0, 0, 0, true, true, true⟩ 0 400 3 100 10).2
    ⟨sampleOffer, rfl, rfl, rfl, by decide, by decide, by decide, by decide, by decide⟩

/-- C9: `recordTrade` and `acceptOffer` drive MarketMetrics through the
same update function of `(energyAmount, totalPrice, region)` (the
metric blocks are identical); a successful `recordTrade` performs no
payment transfer, appends a trade that is Completed immediately with
`totalPrice = energyAmount·pricePerUnit` delivered at once, and its
metrics result is exactly what the `acceptOffer` update function
yields, as is the case for a successful `acceptOffer` itself. -/
theorem recordTrade_metrics_same_as_accept :
    (∀ m energyAmount totalPrice region,
      updateMetricsRecord m energyAmount totalPrice region
        = updateMetricsAccept m energyAmount totalPrice region)
    ∧ (∀ (s : TState) (ctx : Ctx) (seller buyer energyAmount pricePerUnit : Nat)
        (region : String) (s' : TState),
        recordTrade s ctx seller buyer energyAmount pricePerUnit region = .ok s' →
        0 < energyAmount
        ∧ s'.payouts = s.payouts
        ∧ s'.trades = s.trades ++
            [{ id := s.trades.length, seller := seller, buyer := buyer
               energyAmount := energyAmount, pricePerUnit := pricePerUnit
               totalPrice := energyAmount * pricePerUnit, timestamp := ctx.now
               deliveryTime := ctx.now, region := region
               status := .Completed, isCertified := false, certificateId := 0 }]
        ∧ updateMetricsAccept s.marketMetrics energyAmount
            (energyAmount * pricePerUnit) region = .ok s'.marketMetrics)
    ∧ (∀ (s : TState) (ctx : Ctx) (offerId energyAmount : Nat) (s' : TState)
        (offer : EnergyOffer),
        s.offers[offerId]? = some offer →
        acceptOffer s ctx offerId energyAmount = .ok s' →
        updateMetricsAccept s.marketMetrics energyAmount
          (energyAmount * offer.pricePerUnit) offer.region = .ok s'.marketMetrics) := by
  refine ⟨?_, ?_, ?_⟩
  · intro m energyAmount totalPrice region
    rw [updateMetricsRecord, updateMetricsAccept]
  · intro s ctx seller buyer energyAmount pricePerUnit region s' h
    obtain ⟨_, _, he, _, m', hm, hs'⟩ := recordTrade_ok_inv h
    refine ⟨he, by rw [hs'], by rw [hs'], ?_⟩
    have hmm : s'.marketMetrics = m' := by rw [hs']
    rw [hmm, ← hm, updateMetricsRecord, updateMetricsAccept]
  · intro s ctx offerId energyAmount s' offer hoff h
    obtain ⟨offer0, hoff0, _, _, _, _, _, _, _, _, _, _, _, m', hm, hs'⟩ :=
      acceptOffer_ok_inv h
    rw [hoff] at hoff0
    injection hoff0 with heq
    subst heq
    have hmm : s'.marketMetrics = m' := by rw [hs']
    rw [hmm, ← hm]

/-- Witness for C9: recording a 200 kWh trade at 2 wei between 1 and 2
in region "CA" on the fresh ledger creates a Completed trade of total
price 400, moves no funds, and the metrics match the `acceptOffer`
update function. -/
theorem recordTrade_metrics_same_as_accept_witness :
    (0 : Nat) < 200
    ∧ (applyTx (recordTrade (initTState 7) ⟨3, 0, 6, 0, true, true, true⟩ 1 2 200 2 "CA")
        (initTState 7)).payouts = (initTState 7).payouts
    ∧ (applyTx (recordTrade (initTState 7) ⟨3, 0, 6, 0, true, true, true⟩ 1 2 200 2 "CA")
        (initTState 7)).trades =
        [{ id := 0, seller := 1, buyer := 2, energyAmount := 200, pricePerUnit := 2
           totalPrice := 400, timestamp := 6, deliveryTime := 6, region := "CA"
           status := .Completed, isCertified := false, certificateId := 0 }]
    ∧ updateMetricsAccept (initTState 7).marketMetrics 200 400 "CA" =
        .ok (applyTx (recordTrade (initTState 7) ⟨3, 0, 6, 0, true, true, true⟩ 1 2 200 2 "CA")
          (initTState 7)).marketMetrics := by
  have hok : recordTrade (initTState 7) ⟨3, 0, 6, 0, true, true, true⟩ 1 2 200 2 "CA"
      = .ok (applyTx (recordTrade (initTState 7) ⟨3, 0, 6, 0, true, true, true⟩ 1 2 200 2 "CA")
        (initTState 7)) := rfl
  obtain ⟨w1, w2, w3, w4⟩ :=
    recordTrade_metrics_same_as_accept.2.1 (initTState 7) ⟨3, 0, 6, 0, true, true, true⟩
      1 2 200 2 "CA" _ hok
  exact ⟨w1, w2, w3, w4⟩

/-- A non-empty string has positive length. -/
theorem string_length_pos_of_ne_empty (str : String) (h : str ≠ "") : 0 < str.length := by
  cases str with
  | mk data =>
    cases data with
    | nil => exact absurd rfl h
    | cons c cs => simp

/-- C7 counterexample: the claim says registering with the empty region
fails with InvalidInput and leaves the registry unchanged; the source
has no such check — from the fresh registry, `registerUser` with `""`
succeeds, records the sender under the empty-named region and sets its
participant count to 1. -/
theorem register_empty_region_accepted_counterexample :
    callOk (registerUser initLState 1 "" 0) = true
    ∧ (applyTx (registerUser initLState 1 "" 0) initLState).regionUsers "" = [1]
    ∧ ((applyTx (registerUser initLState 1 "" 0) initLState).gridMetrics "").participantCount
        = 1 := by
  exact ⟨rfl, rfl, rfl⟩

/-- C7 (amended): `registerUser` validates nothing — with any region,
the empty string included, a sender with no previous region registers
successfully via the common tail; a sender with a previous (non-empty)
region whose participant count is positive is moved: the sender ends up
recorded under the new region, the previous region's count drops by
exactly 1 and the new region's count rises by exactly 1 (when the two
regions differ). -/
theorem registerUser_moves_identity :
    (∀ (s : LState) (sender : Nat) (region : String) (now : Nat),
      s.userRegion sender = "" →
      registerUser s sender region now = .ok (registerTail s sender region now))
    ∧ (∀ (s : LState) (sender : Nat) (newRegion : String) (now : Nat),
        s.userRegion sender ≠ "" →
        1 ≤ (s.gridMetrics (s.userRegion sender)).participantCount →
        ∃ s', registerUser s sender newRegion now = .ok s'
          ∧ s'.userRegion sender = newRegion
          ∧ (s.userRegion sender ≠ newRegion →
              (s'.gridMetrics (s.userRegion sender)).participantCount
                = (s.gridMetrics (s.userRegion sender)).participantCount - 1
              ∧ (s'.gridMetrics newRegion).participantCount
                = (s.gridMetrics newRegion).participantCount + 1)) := by
  constructor
  · intro s sender region now h
    rw [registerUser, if_neg (by rw [h]; simp)]
  · intro s sender newRegion now hne hcnt
    have hips : 0 < (s.userRegion sender).length :=
      string_length_pos_of_ne_empty _ hne
    have hu : ∀ (t : LState),
        (registerTail t sender newRegion now).userRegion sender = newRegion := by
      intro t
      simp only [registerTail]
      split
      · exact mset_same _ _ _
      · exact mset_same _ _ _
    have hgo : ∀ (t : LState) (r : String), r ≠ newRegion →
        (registerTail t sender newRegion now).gridMetrics r = t.gridMetrics r := by
      intro t r hr
      simp only [registerTail]
      split
      · exact mset_other _ _ _ _ hr
      · exact mset_other _ _ _ _ hr
    have hg2 : ∀ (t : LState),
        ((registerTail t sender newRegion now).gridMetrics newRegion).participantCount
          = (t.gridMetrics newRegion).participantCount + 1 := by
      intro t
      simp only [registerTail]
      split
      · next h0 =>
        have h0' : (t.gridMetrics newRegion).participantCount = 0 := h0
        show ((mset t.gridMetrics newRegion
            (initRegionMetrics (t.gridMetrics newRegion) newRegion now)) newRegion).participantCount
          = (t.gridMetrics newRegion).participantCount + 1
        rw [mset_same]
        show 1 = (t.gridMetrics newRegion).participantCount + 1
        omega
      · show ((mset t.gridMetrics newRegion
            (bumpRegionMetrics (t.gridMetrics newRegion) now)) newRegion).participantCount
          = (t.gridMetrics newRegion).participantCount + 1
        rw [mset_same]
        rfl
    have hrun : registerUser s sender newRegion now
        = .ok (registerTail
            { s with
              regionUsers := mset s.regionUsers (s.userRegion sender)
                               (swapPopFirst (s.regionUsers (s.userRegion sender)) sender)
              gridMetrics := mset s.gridMetrics (s.userRegion sender)
                               (decRegionMetrics (s.gridMetrics (s.userRegion sender))) }
            sender newRegion now) := by
      rw [registerUser, if_pos hips]
      simp only []
      split
      · next h0 =>
        exact absurd
          (show (s.gridMetrics (s.userRegion sender)).participantCount = 0 from h0)
          (by omega)
      · rfl
    refine ⟨_, hrun, hu _, ?_⟩
    intro hner
    constructor
    · rw [hgo _ _ hner]
      show ((mset s.gridMetrics (s.userRegion sender)
          (decRegionMetrics (s.gridMetrics (s.userRegion sender))))
          (s.userRegion sender)).participantCount = _
      rw [mset_same]
      rfl
    · rw [hg2]
      show ((mset s.gridMetrics (s.userRegion sender)
          (decRegionMetrics (s.gridMetrics (s.userRegion sender))))
          newRegion).participantCount + 1 = _
      rw [mset_other _ _ _ _ (Ne.symm hner)]

/-- Witness for C7 (amended): identity 1 registers to region "X" and
then re-registers to "Y": the second call succeeds, the identity is
recorded under "Y", "X" returns to participant count 0 and "Y" reaches
exactly 1. -/
theorem registerUser_moves_identity_witness :
    callOk (registerUser (applyTx (registerUser initLState 1 "X" 0) initLState) 1 "Y" 3) = true
    ∧ (applyTx (registerUser (applyTx (registerUser initLState 1 "X" 0) initLState) 1 "Y" 3)
        (applyTx (registerUser initLState 1 "X" 0) initLState)).userRegion 1 = "Y"
    ∧ ((applyTx (registerUser (applyTx (registerUser initLState 1 "X" 0) initLState) 1 "Y" 3)
        (applyTx (registerUser initLState 1 "X" 0) initLState)).gridMetrics "X").participantCount
        = 0
    ∧ ((applyTx (registerUser (applyTx (registerUser initLState 1 "X" 0) initLState) 1 "Y" 3)
        (applyTx (registerUser initLState 1 "X" 0) initLState)).gridMetrics "Y").participantCount
        = 1 := by
  obtain ⟨s', hok, hreg, hmove⟩ :=
    registerUser_moves_identity.2 (applyTx (registerUser initLState 1 "X" 0) initLState)
      1 "Y" 3 (by decide) (by decide)
  have happ : applyTx (registerUser (applyTx (registerUser initLState 1 "X" 0) initLState) 1 "Y" 3)
      (applyTx (registerUser initLState 1 "X" 0) initLState) = s' := by
    rw [hok]
    rfl
  obtain ⟨hx, hy⟩ := hmove (by decide)
  refine ⟨by rw [hok]; rfl, ?_, ?_, ?_⟩
  · rw [happ]
    exact hreg
  · rw [happ]
    have hxr : (applyTx (registerUser initLState 1 "X" 0) initLState).userRegion 1 = "X" := rfl
    rw [hxr] at hx
    rw [hx]
    decide
  · rw [happ, hy]
    decide

end PowerDapp
